import Mathlib

/-!
Formal model of the core of the `opcua` OPC UA server implementation:
the UA-TCP message buffer, the UA Binary codec layer, the address-space
attribute engine (`Base`), the Call service dispatcher, and the server
lifecycle (abort propagation).

Pure Rust functions are translated to Lean functions; `&mut self` methods
become state-passing functions returning the new state; Rust `Result` becomes
`Except`; a Rust panic (out-of-bounds index, `panic!`, a macro that panics on a
missing mandatory attribute) is modelled by an outer `Option` layer where
`none` stands for the panic.  Machine integers are modelled as `Nat`/`Int`
with explicit bounds where they matter.  Byte streams are `List Nat` with
every element < 256.
-/

set_option maxRecDepth 10000

namespace Opcua

/-- The subset of OPC UA status codes used by the modelled components
(`opcua_types::status_codes::StatusCode`). -/
inductive StatusCode where
  | Good
  | BadCommunicationError
  | BadDecodingError
  | BadEncodingLimitsExceeded
  | BadTypeMismatch
  | BadNotWritable
  | BadTooManyOperations
  | BadNothingToDo
  | BadNodeIdUnknown
  | BadAttributeIdInvalid
  | BadTcpMessageTypeInvalid
  | BadTcpMessageTooLarge
  | BadSequenceNumberInvalid
  deriving DecidableEq, Repr

/-- A byte stream: each element is one octet (kept in range by the
well-formedness predicates of the values being encoded). -/
abbrev Bytes := List Nat

/-- Result of a decoder: the decoded value and the remaining bytes. -/
abbrev DecRes (α : Type) := Except StatusCode (α × Bytes)

instance {ε α : Type} [DecidableEq ε] [DecidableEq α] : DecidableEq (Except ε α)
  | .error e, .error f =>
    if h : e = f then .isTrue (by rw [h]) else .isFalse (by simp [h])
  | .error _, .ok _ => .isFalse (by simp)
  | .ok _, .error _ => .isFalse (by simp)
  | .ok a, .ok b =>
    if h : a = b then .isTrue (by rw [h]) else .isFalse (by simp [h])

/-! ## Primitive little-endian codecs

Modelled from the spec: the primitive encoders/decoders live in
`opcua_types::encoding` which is not part of the covered sources; per the
spec all integers are little-endian, strings and byte strings encode as a
signed 32-bit length followed by the bytes with length -1 denoting null,
and arrays encode as a signed 32-bit length followed by the elements with
length -1 denoting an absent array. -/

def encU8 (n : Nat) : Bytes := [n % 256]

def decU8 : Bytes → DecRes Nat
  | b :: rest => .ok (b, rest)
  | [] => .error .BadDecodingError

def encU16 (n : Nat) : Bytes := [n % 256, n / 256 % 256]

def decU16 : Bytes → DecRes Nat
  | b0 :: b1 :: rest => .ok (b0 + 256 * b1, rest)
  | _ => .error .BadDecodingError

def encU32 (n : Nat) : Bytes :=
  [n % 256, n / 256 % 256, n / 65536 % 256, n / 16777216 % 256]

def decU32 : Bytes → DecRes Nat
  | b0 :: b1 :: b2 :: b3 :: rest =>
      .ok (b0 + 256 * b1 + 65536 * b2 + 16777216 * b3, rest)
  | _ => .error .BadDecodingError

def encU64 (n : Nat) : Bytes :=
  encU32 (n % 4294967296) ++ encU32 (n / 4294967296)

def decU64 : Bytes → DecRes Nat
  | b =>
    match decU32 b with
    | .error e => .error e
    | .ok (lo, b) =>
      match decU32 b with
      | .error e => .error e
      | .ok (hi, b) => .ok (lo + 4294967296 * hi, b)

/-- Signed 32-bit integers encode as their two's-complement bit pattern. -/
def encI32 (i : Int) : Bytes := encU32 (i % 4294967296).toNat

def decI32 (b : Bytes) : DecRes Int :=
  match decU32 b with
  | .error e => .error e
  | .ok (n, rest) =>
      .ok (if n < 2147483648 then (n : Int) else (n : Int) - 4294967296, rest)

/-- Signed 64-bit integers encode as their two's-complement bit pattern. -/
def encI64 (i : Int) : Bytes := encU64 (i % 18446744073709551616).toNat

def decI64 (b : Bytes) : DecRes Int :=
  match decU64 b with
  | .error e => .error e
  | .ok (n, rest) =>
      .ok (if n < 9223372036854775808 then (n : Int)
           else (n : Int) - 18446744073709551616, rest)

theorem decU8_encU8 (n : Nat) (h : n < 256) (rest : Bytes) :
    decU8 (encU8 n ++ rest) = .ok (n, rest) := by
  simp only [encU8, List.cons_append, List.nil_append, decU8]
  congr 1
  simp
  omega

theorem decU16_encU16 (n : Nat) (h : n < 65536) (rest : Bytes) :
    decU16 (encU16 n ++ rest) = .ok (n, rest) := by
  simp only [encU16, List.cons_append, List.nil_append, decU16]
  congr 1
  simp
  omega

theorem decU32_encU32 (n : Nat) (h : n < 4294967296) (rest : Bytes) :
    decU32 (encU32 n ++ rest) = .ok (n, rest) := by
  simp only [encU32, List.cons_append, List.nil_append, decU32]
  congr 1
  simp
  omega

theorem decU64_encU64 (n : Nat) (h : n < 18446744073709551616) (rest : Bytes) :
    decU64 (encU64 n ++ rest) = .ok (n, rest) := by
  have h1 : ∀ r : Bytes, decU32 (encU32 (n % 4294967296) ++ r) =
      .ok (n % 4294967296, r) := fun r => decU32_encU32 _ (by omega) r
  have h2 : ∀ r : Bytes, decU32 (encU32 (n / 4294967296) ++ r) =
      .ok (n / 4294967296, r) := fun r => decU32_encU32 _ (by omega) r
  simp only [encU64, List.append_assoc, decU64, h1, h2]
  have h3 : n % 4294967296 + 4294967296 * (n / 4294967296) = n := by omega
  rw [h3]

theorem decI32_encI32 (i : Int) (h1 : -2147483648 ≤ i) (h2 : i < 2147483648)
    (rest : Bytes) : decI32 (encI32 i ++ rest) = .ok (i, rest) := by
  simp only [encI32, decI32,
    decU32_encU32 _ (show (i % 4294967296).toNat < 4294967296 by omega)]
  have h3 : (if ((i % 4294967296).toNat : Nat) < 2147483648
      then (((i % 4294967296).toNat : Nat) : Int)
      else (((i % 4294967296).toNat : Nat) : Int) - 4294967296) = i := by
    split <;> omega
  rw [h3]

theorem decI64_encI64 (i : Int) (h1 : -9223372036854775808 ≤ i)
    (h2 : i < 9223372036854775808) (rest : Bytes) :
    decI64 (encI64 i ++ rest) = .ok (i, rest) := by
  simp only [encI64, decI64,
    decU64_encU64 _ (show (i % 18446744073709551616).toNat < 18446744073709551616 by omega)]
  have h3 : (if ((i % 18446744073709551616).toNat : Nat) < 9223372036854775808
      then (((i % 18446744073709551616).toNat : Nat) : Int)
      else (((i % 18446744073709551616).toNat : Nat) : Int) - 18446744073709551616) = i := by
    split <;> omega
  rw [h3]

theorem length_encU8 (n : Nat) : (encU8 n).length = 1 := rfl
theorem length_encU16 (n : Nat) : (encU16 n).length = 2 := rfl
theorem length_encU32 (n : Nat) : (encU32 n).length = 4 := rfl
theorem length_encU64 (n : Nat) : (encU64 n).length = 8 := rfl
theorem length_encI32 (i : Int) : (encI32 i).length = 4 := rfl
theorem length_encI64 (i : Int) : (encI64 i).length = 8 := rfl

/-! ## Strings, byte strings and arrays

Modelled from the spec: `opcua_types::string` (`UAString`), `ByteString` and
the generic `read_array`/`write_array`/`byte_len_array` helpers of
`opcua_types::encoding` are not part of the covered sources.  A `UAString`
value is modelled by the sequence of its UTF-8 code units (`Option Bytes`,
`none` being the null string).  Decoding fails with `BadDecodingError` on a
negative length other than -1 or on short input, and with
`BadEncodingLimitsExceeded` above the enforced maxima
(`MAX_STRING_LENGTH` = `MAX_BYTE_STRING_LENGTH` = 65536,
`MAX_ARRAY_LENGTH` = 1000). -/

def MAX_ARRAY_LENGTH : Nat := 1000
def MAX_STRING_LENGTH : Nat := 65536
def MAX_BYTE_STRING_LENGTH : Nat := 65536

/-- A `UAString`: `none` is the null string. -/
abbrev UAString := Option Bytes

/-- A `ByteString`: same wire form as `UAString`. -/
abbrev ByteString := Option Bytes

def encUAString : UAString → Bytes
  | none => encI32 (-1)
  | some s => encI32 s.length ++ s

def decUAString (b : Bytes) : DecRes UAString :=
  match decI32 b with
  | .error e => .error e
  | .ok (len, b) =>
    if len = -1 then .ok (none, b)
    else if len < -1 then .error .BadDecodingError
    else if (MAX_STRING_LENGTH : Int) < len then .error .BadEncodingLimitsExceeded
    else if b.length < len.toNat then .error .BadDecodingError
    else .ok (some (b.take len.toNat), b.drop len.toNat)

def byteLenUAString : UAString → Nat
  | none => 4
  | some s => 4 + s.length

/-- In-range (`encodable`) strings: within `MAX_STRING_LENGTH`, all octets. -/
def UAString.WF : UAString → Prop
  | none => True
  | some s => s.length ≤ MAX_STRING_LENGTH ∧ ∀ x ∈ s, x < 256

instance : DecidablePred UAString.WF
  | none => .isTrue trivial
  | some s =>
    inferInstanceAs (Decidable (s.length ≤ MAX_STRING_LENGTH ∧ ∀ x ∈ s, x < 256))

theorem decUAString_enc (s : UAString) (h : s.WF) (rest : Bytes) :
    decUAString (encUAString s ++ rest) = .ok (s, rest) := by
  cases s with
  | none =>
    simp only [encUAString, decUAString, decI32_encI32 (-1) (by omega) (by omega)]
    norm_num
  | some s =>
    obtain ⟨hlen, -⟩ := h
    simp only [MAX_STRING_LENGTH] at hlen
    simp only [encUAString, List.append_assoc, decUAString,
      decI32_encI32 (s.length : Int) (by omega) (by omega)]
    have c1 : ¬ ((s.length : Int) = -1) := by omega
    have c2 : ¬ ((s.length : Int) < -1) := by omega
    have c3 : ¬ ((MAX_STRING_LENGTH : Int) < (s.length : Int)) := by
      simp only [MAX_STRING_LENGTH]; omega
    have c4 : ¬ ((s ++ rest).length < s.length) := by
      simp only [List.length_append]; omega
    simp only [c1, c2, c3, Int.toNat_natCast, c4, if_false, if_neg]
    rw [List.take_left, List.drop_left]

theorem length_encUAString (s : UAString) :
    (encUAString s).length = byteLenUAString s := by
  cases s <;> simp [encUAString, byteLenUAString, length_encI32, Nat.add_comm]

/-- `write_array`: -1 for an absent array, else length then the elements. -/
def encArray (encElem : α → Bytes) : Option (List α) → Bytes
  | none => encI32 (-1)
  | some xs => encI32 xs.length ++ (xs.map encElem).flatten

/-- Decode exactly `n` consecutive elements. -/
def decCount (decElem : Bytes → DecRes α) : Nat → Bytes → DecRes (List α)
  | 0, b => .ok ([], b)
  | n + 1, b =>
    match decElem b with
    | .error e => .error e
    | .ok (x, b) =>
      match decCount decElem n b with
      | .error e => .error e
      | .ok (xs, b) => .ok (x :: xs, b)

/-- `read_array`. -/
def decArray (decElem : Bytes → DecRes α) (b : Bytes) : DecRes (Option (List α)) :=
  match decI32 b with
  | .error e => .error e
  | .ok (len, b) =>
    if len = -1 then .ok (none, b)
    else if len < -1 then .error .BadDecodingError
    else if (MAX_ARRAY_LENGTH : Int) < len then .error .BadEncodingLimitsExceeded
    else
      match decCount decElem len.toNat b with
      | .error e => .error e
      | .ok (xs, b) => .ok (some xs, b)

/-- `byte_len_array`. -/
def byteLenArray (lenElem : α → Nat) : Option (List α) → Nat
  | none => 4
  | some xs => 4 + (xs.map lenElem).sum

theorem decCount_encList (decElem : Bytes → DecRes α) (encElem : α → Bytes)
    (xs : List α) (rest : Bytes)
    (helem : ∀ x ∈ xs, ∀ r : Bytes, decElem (encElem x ++ r) = .ok (x, r)) :
    decCount decElem xs.length ((xs.map encElem).flatten ++ rest) = .ok (xs, rest) := by
  induction xs with
  | nil => simp [decCount]
  | cons x xs ih =>
    simp only [List.map_cons, List.flatten_cons, List.length_cons, List.append_assoc,
      decCount, helem x (by simp), ih (fun y hy r => helem y (by simp [hy]) r)]

theorem decArray_enc (decElem : Bytes → DecRes α) (encElem : α → Bytes)
    (xs : Option (List α)) (rest : Bytes)
    (hlen : ∀ ys, xs = some ys → ys.length ≤ MAX_ARRAY_LENGTH)
    (helem : ∀ ys, xs = some ys → ∀ x ∈ ys, ∀ r : Bytes,
      decElem (encElem x ++ r) = .ok (x, r)) :
    decArray decElem (encArray encElem xs ++ rest) = .ok (xs, rest) := by
  cases xs with
  | none =>
    simp only [encArray, decArray, decI32_encI32 (-1) (by omega) (by omega)]
    norm_num
  | some ys =>
    have hl := hlen ys rfl
    simp only [MAX_ARRAY_LENGTH] at hl
    simp only [encArray, List.append_assoc, decArray,
      decI32_encI32 (ys.length : Int) (by omega) (by omega)]
    have c1 : ¬ ((ys.length : Int) = -1) := by omega
    have c2 : ¬ ((ys.length : Int) < -1) := by omega
    have c3 : ¬ ((MAX_ARRAY_LENGTH : Int) < (ys.length : Int)) := by
      simp only [MAX_ARRAY_LENGTH]; omega
    simp only [c1, c2, c3, if_false, if_neg, Int.toNat_natCast,
      decCount_encList decElem encElem ys rest (helem ys rfl)]

theorem length_encArray (encElem : α → Bytes) (lenElem : α → Nat)
    (xs : Option (List α))
    (helem : ∀ ys, xs = some ys → ∀ x ∈ ys, (encElem x).length = lenElem x) :
    (encArray encElem xs).length = byteLenArray lenElem xs := by
  cases xs with
  | none => simp [encArray, byteLenArray, length_encI32]
  | some ys =>
    simp only [encArray, byteLenArray, List.length_append, length_encI32]
    congr 1
    induction ys with
    | nil => simp
    | cons x xs ih =>
      simp only [List.map_cons, List.flatten_cons, List.length_append, List.sum_cons]
      rw [helem (x :: xs) rfl x (by simp),
        ih (fun ys h => by cases h; intro y hy; exact helem _ rfl y (by simp [hy]))]

/-! ## NodeId

Modelled from the spec: `opcua_types::node_id` is not part of the covered
sources.  Per the spec a NodeId is a namespace index (u16) plus an identifier
that is a u32, a string, a guid or a byte string, and it "uses a compact
1-byte discriminator with four variants (two-byte numeric, four-byte numeric,
numeric, string/guid/bytes) exactly as UA Binary specifies". -/

inductive Identifier where
  | numeric (n : Nat)
  | string (s : Bytes)
  | guid (g : Bytes)
  | byteString (s : Bytes)
  deriving DecidableEq, Repr

structure NodeId where
  ns : Nat
  identifier : Identifier
  deriving DecidableEq, Repr

def Identifier.WF : Identifier → Prop
  | .numeric n => n < 4294967296
  | .string s => UAString.WF (some s)
  | .guid g => g.length = 16 ∧ ∀ x ∈ g, x < 256
  | .byteString s => UAString.WF (some s)

def NodeId.WF (n : NodeId) : Prop := n.ns < 65536 ∧ n.identifier.WF

instance : DecidablePred Identifier.WF
  | .numeric n => inferInstanceAs (Decidable (n < 4294967296))
  | .string s => inferInstanceAs (Decidable (UAString.WF (some s)))
  | .guid g => inferInstanceAs (Decidable (g.length = 16 ∧ ∀ x ∈ g, x < 256))
  | .byteString s => inferInstanceAs (Decidable (UAString.WF (some s)))

instance : DecidablePred NodeId.WF := fun n =>
  inferInstanceAs (Decidable (n.ns < 65536 ∧ n.identifier.WF))

def encNodeId (n : NodeId) : Bytes :=
  match n.identifier with
  | .numeric id =>
    if n.ns = 0 ∧ id ≤ 255 then 0 :: encU8 id
    else if n.ns ≤ 255 ∧ id ≤ 65535 then 1 :: (encU8 n.ns ++ encU16 id)
    else 2 :: (encU16 n.ns ++ encU32 id)
  | .string s => 3 :: (encU16 n.ns ++ encUAString (some s))
  | .guid g => 4 :: (encU16 n.ns ++ g)
  | .byteString s => 5 :: (encU16 n.ns ++ encUAString (some s))

def byteLenNodeId (n : NodeId) : Nat :=
  match n.identifier with
  | .numeric id =>
    if n.ns = 0 ∧ id ≤ 255 then 2
    else if n.ns ≤ 255 ∧ id ≤ 65535 then 4
    else 7
  | .string s => 3 + byteLenUAString (some s)
  | .guid g => 3 + g.length
  | .byteString s => 3 + byteLenUAString (some s)

def decNodeId (b : Bytes) : DecRes NodeId :=
  match decU8 b with
  | .error e => .error e
  | .ok (t, b) =>
    if t = 0 then
      match decU8 b with
      | .error e => .error e
      | .ok (id, b) => .ok (⟨0, .numeric id⟩, b)
    else if t = 1 then
      match decU8 b with
      | .error e => .error e
      | .ok (ns, b) =>
        match decU16 b with
        | .error e => .error e
        | .ok (id, b) => .ok (⟨ns, .numeric id⟩, b)
    else if t = 2 then
      match decU16 b with
      | .error e => .error e
      | .ok (ns, b) =>
        match decU32 b with
        | .error e => .error e
        | .ok (id, b) => .ok (⟨ns, .numeric id⟩, b)
    else if t = 3 then
      match decU16 b with
      | .error e => .error e
      | .ok (ns, b) =>
        match decUAString b with
        | .error e => .error e
        | .ok (some s, b) => .ok (⟨ns, .string s⟩, b)
        | .ok (none, _) => .error .BadDecodingError
    else if t = 4 then
      match decU16 b with
      | .error e => .error e
      | .ok (ns, b) =>
        if b.length < 16 then .error .BadDecodingError
        else .ok (⟨ns, .guid (b.take 16)⟩, b.drop 16)
    else if t = 5 then
      match decU16 b with
      | .error e => .error e
      | .ok (ns, b) =>
        match decUAString b with
        | .error e => .error e
        | .ok (some s, b) => .ok (⟨ns, .byteString s⟩, b)
        | .ok (none, _) => .error .BadDecodingError
    else .error .BadDecodingError

theorem decU8_cons (b : Nat) (rest : Bytes) : decU8 (b :: rest) = .ok (b, rest) := rfl

theorem decNodeId_enc (n : NodeId) (h : n.WF) (rest : Bytes) :
    decNodeId (encNodeId n ++ rest) = .ok (n, rest) := by
  obtain ⟨ns, ident⟩ := n
  obtain ⟨hns, hid⟩ := h
  simp only [NodeId.ns] at hns
  cases ident with
  | numeric id =>
    simp only [Identifier.WF] at hid
    by_cases h1 : ns = 0 ∧ id ≤ 255
    · obtain ⟨rfl, hle⟩ := h1
      simp only [encNodeId, NodeId.ns, NodeId.identifier, List.cons_append]
      simp [decNodeId, decU8_cons, decU8_encU8 id (by omega), hle]
    · by_cases h2 : ns ≤ 255 ∧ id ≤ 65535
      · simp only [encNodeId, NodeId.ns, NodeId.identifier, if_neg h1, if_pos h2,
          List.cons_append, List.append_assoc]
        simp [decNodeId, decU8_cons, decU8_encU8 ns (by omega),
          decU16_encU16 id (by omega)]
      · simp only [encNodeId, NodeId.ns, NodeId.identifier, if_neg h1, if_neg h2,
          List.cons_append, List.append_assoc]
        simp [decNodeId, decU8_cons, decU16_encU16 ns (by omega),
          decU32_encU32 id (by omega)]
  | string s =>
    simp only [encNodeId, NodeId.ns, NodeId.identifier, List.cons_append,
      List.append_assoc]
    simp [decNodeId, decU8_cons, decU16_encU16 ns (by omega),
      decUAString_enc (some s) hid]
  | guid g =>
    obtain ⟨hlen, -⟩ := hid
    simp only [encNodeId, NodeId.ns, NodeId.identifier, List.cons_append,
      List.append_assoc]
    simp only [decNodeId, decU8_cons, decU16_encU16 ns (by omega)]
    norm_num
    rw [if_neg (by simp [hlen]), show (16 : Nat) = g.length from hlen.symm,
      List.take_left, List.drop_left]
  | byteString s =>
    simp only [encNodeId, NodeId.ns, NodeId.identifier, List.cons_append,
      List.append_assoc]
    simp [decNodeId, decU8_cons, decU16_encU16 ns (by omega),
      decUAString_enc (some s) hid]

theorem length_encNodeId (n : NodeId) : (encNodeId n).length = byteLenNodeId n := by
  obtain ⟨ns, ident⟩ := n
  cases ident with
  | numeric id =>
    simp only [encNodeId, byteLenNodeId]
    split_ifs <;>
      simp [encU8, encU16, encU32]
  | string s =>
    simp only [encNodeId, byteLenNodeId, List.length_cons, List.length_append,
      length_encU16, length_encUAString]
    omega
  | guid g =>
    simp only [encNodeId, byteLenNodeId, List.length_cons, List.length_append,
      length_encU16]
    omega
  | byteString s =>
    simp only [encNodeId, byteLenNodeId, List.length_cons, List.length_append,
      length_encU16, length_encUAString]
    omega

/-! ## LocalizedText, QualifiedName

Modelled from the spec: `opcua_types::basic_types` is not part of the
covered sources.  A LocalizedText encodes a 1-byte presence mask (bit 0 =
locale present, bit 1 = text present) followed by the present strings; a
QualifiedName encodes the namespace index (u16) followed by the name
string. -/

structure LocalizedText where
  locale : UAString
  text : UAString
  deriving DecidableEq, Repr

def LocalizedText.WF (t : LocalizedText) : Prop := t.locale.WF ∧ t.text.WF

instance : DecidablePred LocalizedText.WF := fun t =>
  inferInstanceAs (Decidable (t.locale.WF ∧ t.text.WF))

def encLocalizedText (t : LocalizedText) : Bytes :=
  ((if t.locale.isSome then 1 else 0) + (if t.text.isSome then 2 else 0)) ::
    ((match t.locale with | some s => encUAString (some s) | none => []) ++
     (match t.text with | some s => encUAString (some s) | none => []))

def byteLenLocalizedText (t : LocalizedText) : Nat :=
  1 + (match t.locale with | some s => byteLenUAString (some s) | none => 0) +
      (match t.text with | some s => byteLenUAString (some s) | none => 0)

def decLocalizedText (b : Bytes) : DecRes LocalizedText :=
  match decU8 b with
  | .error e => .error e
  | .ok (mask, b) =>
    match (if mask % 2 = 1 then decUAString b else .ok (none, b)) with
    | .error e => .error e
    | .ok (locale, b) =>
      match (if mask / 2 % 2 = 1 then decUAString b else .ok (none, b)) with
      | .error e => .error e
      | .ok (text, b) => .ok ({ locale, text }, b)

theorem decLocalizedText_enc (t : LocalizedText) (h : t.WF) (rest : Bytes) :
    decLocalizedText (encLocalizedText t ++ rest) = .ok (t, rest) := by
  obtain ⟨locale, text⟩ := t
  obtain ⟨h1, h2⟩ := h
  cases locale <;> cases text <;>
    simp [encLocalizedText, decLocalizedText, decU8_cons,
      decUAString_enc _ h1, decUAString_enc _ h2]

theorem length_encLocalizedText (t : LocalizedText) :
    (encLocalizedText t).length = byteLenLocalizedText t := by
  obtain ⟨locale, text⟩ := t
  cases locale <;> cases text <;>
    simp [encLocalizedText, byteLenLocalizedText, length_encUAString] <;> omega

structure QualifiedName where
  namespace_index : Nat
  name : UAString
  deriving DecidableEq, Repr

def QualifiedName.WF (q : QualifiedName) : Prop :=
  q.namespace_index < 65536 ∧ q.name.WF

instance : DecidablePred QualifiedName.WF := fun q =>
  inferInstanceAs (Decidable (q.namespace_index < 65536 ∧ q.name.WF))

def encQualifiedName (q : QualifiedName) : Bytes :=
  encU16 q.namespace_index ++ encUAString q.name

def byteLenQualifiedName (q : QualifiedName) : Nat :=
  2 + byteLenUAString q.name

def decQualifiedName (b : Bytes) : DecRes QualifiedName :=
  match decU16 b with
  | .error e => .error e
  | .ok (namespace_index, b) =>
    match decUAString b with
    | .error e => .error e
    | .ok (name, b) => .ok ({ namespace_index, name }, b)

theorem decQualifiedName_enc (q : QualifiedName) (h : q.WF) (rest : Bytes) :
    decQualifiedName (encQualifiedName q ++ rest) = .ok (q, rest) := by
  obtain ⟨h1, h2⟩ := h
  simp [encQualifiedName, decQualifiedName, List.append_assoc,
    decU16_encU16 _ h1, decUAString_enc _ h2]

theorem length_encQualifiedName (q : QualifiedName) :
    (encQualifiedName q).length = byteLenQualifiedName q := by
  simp [encQualifiedName, byteLenQualifiedName, length_encU16, length_encUAString]

/-! ## ExtensionObject, DateTime, Double, TimestampsToReturn

Modelled from the spec: `opcua_types::extension_object`, `date_time` and the
`TimestampsToReturn` enum are not part of the covered sources.  An
ExtensionObject is the encoding NodeId, a 1-byte body flag (0 = none,
1 = byte-string body, 2 = XML body) and the optional body.  A DateTime is an
i64 count of 100-ns ticks since 1601-01-01 UTC.  A Double is carried by the
codec as its raw 8-byte IEEE-754 pattern, modelled by the 64-bit pattern
itself (the codec never interprets it). -/

inductive ExtensionObjectBody where
  | null
  | byteString (s : Bytes)
  | xmlElement (s : Bytes)
  deriving DecidableEq, Repr

structure ExtensionObject where
  node_id : NodeId
  body : ExtensionObjectBody
  deriving DecidableEq, Repr

def ExtensionObjectBody.WF : ExtensionObjectBody → Prop
  | .null => True
  | .byteString s => UAString.WF (some s)
  | .xmlElement s => UAString.WF (some s)

instance : DecidablePred ExtensionObjectBody.WF
  | .null => .isTrue trivial
  | .byteString s => inferInstanceAs (Decidable (UAString.WF (some s)))
  | .xmlElement s => inferInstanceAs (Decidable (UAString.WF (some s)))

def ExtensionObject.WF (e : ExtensionObject) : Prop :=
  e.node_id.WF ∧ e.body.WF

instance : DecidablePred ExtensionObject.WF := fun e =>
  inferInstanceAs (Decidable (e.node_id.WF ∧ e.body.WF))

def encExtensionObject (e : ExtensionObject) : Bytes :=
  encNodeId e.node_id ++
    match e.body with
    | .null => [0]
    | .byteString s => 1 :: encUAString (some s)
    | .xmlElement s => 2 :: encUAString (some s)

def byteLenExtensionObject (e : ExtensionObject) : Nat :=
  byteLenNodeId e.node_id +
    match e.body with
    | .null => 1
    | .byteString s => 1 + byteLenUAString (some s)
    | .xmlElement s => 1 + byteLenUAString (some s)

def decExtensionObject (b : Bytes) : DecRes ExtensionObject :=
  match decNodeId b with
  | .error e => .error e
  | .ok (node_id, b) =>
    match decU8 b with
    | .error e => .error e
    | .ok (flag, b) =>
      if flag = 0 then .ok ({ node_id, body := .null }, b)
      else if flag = 1 then
        match decUAString b with
        | .error e => .error e
        | .ok (some s, b) => .ok ({ node_id, body := .byteString s }, b)
        | .ok (none, _) => .error .BadDecodingError
      else if flag = 2 then
        match decUAString b with
        | .error e => .error e
        | .ok (some s, b) => .ok ({ node_id, body := .xmlElement s }, b)
        | .ok (none, _) => .error .BadDecodingError
      else .error .BadDecodingError

theorem decExtensionObject_enc (e : ExtensionObject) (h : e.WF) (rest : Bytes) :
    decExtensionObject (encExtensionObject e ++ rest) = .ok (e, rest) := by
  obtain ⟨node_id, body⟩ := e
  obtain ⟨h1, h2⟩ := h
  cases body with
  | null =>
    simp [encExtensionObject, decExtensionObject, List.append_assoc,
      decNodeId_enc _ h1, decU8_cons]
  | byteString s =>
    have h2s : UAString.WF (some s) := h2
    simp [encExtensionObject, decExtensionObject, List.append_assoc,
      decNodeId_enc _ h1, decU8_cons, decUAString_enc _ h2s]
  | xmlElement s =>
    have h2s : UAString.WF (some s) := h2
    simp [encExtensionObject, decExtensionObject, List.append_assoc,
      decNodeId_enc _ h1, decU8_cons, decUAString_enc _ h2s]

theorem length_encExtensionObject (e : ExtensionObject) :
    (encExtensionObject e).length = byteLenExtensionObject e := by
  obtain ⟨node_id, body⟩ := e
  cases body <;>
    simp [encExtensionObject, byteLenExtensionObject, length_encNodeId,
      length_encUAString] <;> omega

/-- A DateTime: 100-ns ticks since 1601-01-01 UTC, wire form i64. -/
abbrev UADateTime := Int

def UADateTime.WF (t : UADateTime) : Prop :=
  -9223372036854775808 ≤ t ∧ t < 9223372036854775808

instance : DecidablePred UADateTime.WF := fun t =>
  inferInstanceAs (Decidable (-9223372036854775808 ≤ t ∧ t < 9223372036854775808))

def encDateTime (t : UADateTime) : Bytes := encI64 t
def decDateTime (b : Bytes) : DecRes UADateTime := decI64 b

theorem decDateTime_enc (t : UADateTime) (h : t.WF) (rest : Bytes) :
    decDateTime (encDateTime t ++ rest) = .ok (t, rest) :=
  decI64_encI64 t h.1 h.2 rest

/-- A Double, represented by its 64-bit IEEE-754 bit pattern. -/
abbrev UADouble := Nat

def UADouble.WF (d : UADouble) : Prop := d < 18446744073709551616

instance : DecidablePred UADouble.WF := fun d =>
  inferInstanceAs (Decidable (d < 18446744073709551616))

def encDouble (d : UADouble) : Bytes := encU64 d
def decDouble (b : Bytes) : DecRes UADouble := decU64 b

theorem decDouble_enc (d : UADouble) (h : d.WF) (rest : Bytes) :
    decDouble (encDouble d ++ rest) = .ok (d, rest) :=
  decU64_encU64 d h rest

/-- `TimestampsToReturn` (`opcua_types::service_types::enums`). -/
inductive TimestampsToReturn where
  | Source
  | Server
  | Both
  | Neither
  deriving DecidableEq, Repr

def TimestampsToReturn.toI32 : TimestampsToReturn → Int
  | .Source => 0
  | .Server => 1
  | .Both => 2
  | .Neither => 3

def encTimestampsToReturn (t : TimestampsToReturn) : Bytes := encI32 t.toI32

def decTimestampsToReturn (b : Bytes) : DecRes TimestampsToReturn :=
  match decI32 b with
  | .error e => .error e
  | .ok (n, b) =>
    if n = 0 then .ok (.Source, b)
    else if n = 1 then .ok (.Server, b)
    else if n = 2 then .ok (.Both, b)
    else if n = 3 then .ok (.Neither, b)
    else .error .BadDecodingError

theorem decTimestampsToReturn_enc (t : TimestampsToReturn) (rest : Bytes) :
    decTimestampsToReturn (encTimestampsToReturn t ++ rest) = .ok (t, rest) := by
  have h0 := decI32_encI32 0 (by omega) (by omega) rest
  have h1 := decI32_encI32 1 (by omega) (by omega) rest
  have h2 := decI32_encI32 2 (by omega) (by omega) rest
  have h3 := decI32_encI32 3 (by omega) (by omega) rest
  cases t <;>
    simp [encTimestampsToReturn, TimestampsToReturn.toI32, decTimestampsToReturn,
      h0, h1, h2, h3]

theorem length_encTimestampsToReturn (t : TimestampsToReturn) :
    (encTimestampsToReturn t).length = 4 := rfl

/-! ## Wire records

`Argument` (src/types/src/service_types/argument.rs), `ReadRequest`
(src/types/src/service_types/read_request.rs) and `ContentFilter`
(src/types/src/service_types/content_filter.rs), with their
`BinaryEncoder` implementations (`byte_len`, `encode`, `decode`) translated
field by field.  `RequestHeader`, `ReadValueId` and `ContentFilterElement`
are modelled from the spec (their sources are not covered): their field
lists and orders follow OPC UA Part 4. -/

structure Argument where
  name : UAString
  data_type : NodeId
  value_rank : Int
  array_dimensions : Option (List Nat)
  description : LocalizedText
  deriving DecidableEq, Repr

def Argument.byte_len (v : Argument) : Nat :=
  byteLenUAString v.name + byteLenNodeId v.data_type + 4 +
    byteLenArray (fun _ => 4) v.array_dimensions + byteLenLocalizedText v.description

def Argument.encode (v : Argument) : Bytes :=
  encUAString v.name ++ encNodeId v.data_type ++ encI32 v.value_rank ++
    encArray encU32 v.array_dimensions ++ encLocalizedText v.description

def Argument.decode (b : Bytes) : DecRes Argument :=
  match decUAString b with
  | .error e => .error e
  | .ok (name, b) =>
    match decNodeId b with
    | .error e => .error e
    | .ok (data_type, b) =>
      match decI32 b with
      | .error e => .error e
      | .ok (value_rank, b) =>
        match decArray decU32 b with
        | .error e => .error e
        | .ok (array_dimensions, b) =>
          match decLocalizedText b with
          | .error e => .error e
          | .ok (description, b) =>
            .ok ({ name, data_type, value_rank, array_dimensions, description }, b)

def Argument.WF (v : Argument) : Prop :=
  v.name.WF ∧ v.data_type.WF ∧
    (-2147483648 ≤ v.value_rank ∧ v.value_rank < 2147483648) ∧
    (∀ ds, v.array_dimensions = some ds →
      ds.length ≤ MAX_ARRAY_LENGTH ∧ ∀ d ∈ ds, d < 4294967296) ∧
    v.description.WF

instance : DecidablePred Argument.WF := fun v =>
  inferInstanceAs (Decidable (v.name.WF ∧ v.data_type.WF ∧
    (-2147483648 ≤ v.value_rank ∧ v.value_rank < 2147483648) ∧
    (∀ ds, v.array_dimensions = some ds →
      ds.length ≤ MAX_ARRAY_LENGTH ∧ ∀ d ∈ ds, d < 4294967296) ∧
    v.description.WF))

theorem argument_decode_encode (v : Argument) (h : v.WF) (rest : Bytes) :
    Argument.decode (v.encode ++ rest) = .ok (v, rest) := by
  obtain ⟨name, data_type, value_rank, array_dimensions, description⟩ := v
  obtain ⟨h1, h2, h3, h4, h5⟩ := h
  simp only [Argument.encode, List.append_assoc, Argument.decode,
    decUAString_enc _ h1, decNodeId_enc _ h2, decI32_encI32 _ h3.1 h3.2,
    decArray_enc decU32 encU32 array_dimensions _
      (fun ds hds => (h4 ds hds).1)
      (fun ds hds d hd r => decU32_encU32 d ((h4 ds hds).2 d hd) r),
    decLocalizedText_enc _ h5]

theorem argument_length_encode (v : Argument) : v.encode.length = v.byte_len := by
  simp only [Argument.encode, Argument.byte_len, List.length_append,
    length_encUAString, length_encNodeId, length_encI32,
    length_encArray encU32 (fun _ => 4) _ (fun ys _ x _ => length_encU32 x),
    length_encLocalizedText]

/-- Modelled from the spec: `RequestHeader`
(`opcua_types::service_types::impls`) is not in the covered sources. -/
structure RequestHeader where
  authentication_token : NodeId
  timestamp : UADateTime
  request_handle : Nat
  return_diagnostics : Nat
  audit_entry_id : UAString
  timeout_hint : Nat
  additional_header : ExtensionObject
  deriving DecidableEq, Repr

def RequestHeader.WF (v : RequestHeader) : Prop :=
  v.authentication_token.WF ∧ v.timestamp.WF ∧ v.request_handle < 4294967296 ∧
    v.return_diagnostics < 4294967296 ∧ v.audit_entry_id.WF ∧
    v.timeout_hint < 4294967296 ∧ v.additional_header.WF

instance : DecidablePred RequestHeader.WF := fun v =>
  inferInstanceAs (Decidable (v.authentication_token.WF ∧ v.timestamp.WF ∧
    v.request_handle < 4294967296 ∧ v.return_diagnostics < 4294967296 ∧
    v.audit_entry_id.WF ∧ v.timeout_hint < 4294967296 ∧
    v.additional_header.WF))

def RequestHeader.byte_len (v : RequestHeader) : Nat :=
  byteLenNodeId v.authentication_token + 8 + 4 + 4 +
    byteLenUAString v.audit_entry_id + 4 + byteLenExtensionObject v.additional_header

def RequestHeader.encode (v : RequestHeader) : Bytes :=
  encNodeId v.authentication_token ++ encDateTime v.timestamp ++
    encU32 v.request_handle ++ encU32 v.return_diagnostics ++
    encUAString v.audit_entry_id ++ encU32 v.timeout_hint ++
    encExtensionObject v.additional_header

def RequestHeader.decode (b : Bytes) : DecRes RequestHeader :=
  match decNodeId b with
  | .error e => .error e
  | .ok (authentication_token, b) =>
    match decDateTime b with
    | .error e => .error e
    | .ok (timestamp, b) =>
      match decU32 b with
      | .error e => .error e
      | .ok (request_handle, b) =>
        match decU32 b with
        | .error e => .error e
        | .ok (return_diagnostics, b) =>
          match decUAString b with
          | .error e => .error e
          | .ok (audit_entry_id, b) =>
            match decU32 b with
            | .error e => .error e
            | .ok (timeout_hint, b) =>
              match decExtensionObject b with
              | .error e => .error e
              | .ok (additional_header, b) =>
                .ok ({ authentication_token, timestamp, request_handle,
                       return_diagnostics, audit_entry_id, timeout_hint,
                       additional_header }, b)

theorem requestHeader_decode_encode (v : RequestHeader) (h : v.WF) (rest : Bytes) :
    RequestHeader.decode (v.encode ++ rest) = .ok (v, rest) := by
  obtain ⟨f1, f2, f3, f4, f5, f6, f7⟩ := v
  obtain ⟨h1, h2, h3, h4, h5, h6, h7⟩ := h
  simp only [RequestHeader.encode, List.append_assoc, RequestHeader.decode,
    decNodeId_enc _ h1, decDateTime_enc _ h2, decU32_encU32 _ h3,
    decU32_encU32 _ h4, decUAString_enc _ h5, decU32_encU32 _ h6,
    decExtensionObject_enc _ h7]

theorem requestHeader_length_encode (v : RequestHeader) :
    v.encode.length = v.byte_len := by
  simp only [RequestHeader.encode, RequestHeader.byte_len, List.length_append,
    length_encNodeId, length_encI64, length_encU32, length_encUAString,
    length_encExtensionObject, encDateTime]

/-- Modelled from the spec: `ReadValueId` is not in the covered sources. -/
structure ReadValueId where
  node_id : NodeId
  attribute_id : Nat
  index_range : UAString
  data_encoding : QualifiedName
  deriving DecidableEq, Repr

def ReadValueId.WF (v : ReadValueId) : Prop :=
  v.node_id.WF ∧ v.attribute_id < 4294967296 ∧ v.index_range.WF ∧
    v.data_encoding.WF

instance : DecidablePred ReadValueId.WF := fun v =>
  inferInstanceAs (Decidable (v.node_id.WF ∧ v.attribute_id < 4294967296 ∧
    v.index_range.WF ∧ v.data_encoding.WF))

def ReadValueId.byte_len (v : ReadValueId) : Nat :=
  byteLenNodeId v.node_id + 4 + byteLenUAString v.index_range +
    byteLenQualifiedName v.data_encoding

def ReadValueId.encode (v : ReadValueId) : Bytes :=
  encNodeId v.node_id ++ encU32 v.attribute_id ++ encUAString v.index_range ++
    encQualifiedName v.data_encoding

def ReadValueId.decode (b : Bytes) : DecRes ReadValueId :=
  match decNodeId b with
  | .error e => .error e
  | .ok (node_id, b) =>
    match decU32 b with
    | .error e => .error e
    | .ok (attribute_id, b) =>
      match decUAString b with
      | .error e => .error e
      | .ok (index_range, b) =>
        match decQualifiedName b with
        | .error e => .error e
        | .ok (data_encoding, b) =>
          .ok ({ node_id, attribute_id, index_range, data_encoding }, b)

theorem readValueId_decode_encode (v : ReadValueId) (h : v.WF) (rest : Bytes) :
    ReadValueId.decode (v.encode ++ rest) = .ok (v, rest) := by
  obtain ⟨f1, f2, f3, f4⟩ := v
  obtain ⟨h1, h2, h3, h4⟩ := h
  simp only [ReadValueId.encode, List.append_assoc, ReadValueId.decode,
    decNodeId_enc _ h1, decU32_encU32 _ h2, decUAString_enc _ h3,
    decQualifiedName_enc _ h4]

theorem readValueId_length_encode (v : ReadValueId) :
    v.encode.length = v.byte_len := by
  simp only [ReadValueId.encode, ReadValueId.byte_len, List.length_append,
    length_encNodeId, length_encU32, length_encUAString, length_encQualifiedName]

/-- `ReadRequest` (src/types/src/service_types/read_request.rs). -/
structure ReadRequest where
  request_header : RequestHeader
  max_age : UADouble
  timestamps_to_return : TimestampsToReturn
  nodes_to_read : Option (List ReadValueId)
  deriving DecidableEq, Repr

def ReadRequest.WF (v : ReadRequest) : Prop :=
  v.request_header.WF ∧ v.max_age.WF ∧
    (∀ ns, v.nodes_to_read = some ns →
      ns.length ≤ MAX_ARRAY_LENGTH ∧ ∀ x ∈ ns, x.WF)

instance : DecidablePred ReadRequest.WF := fun v =>
  inferInstanceAs (Decidable (v.request_header.WF ∧ v.max_age.WF ∧
    (∀ ns, v.nodes_to_read = some ns →
      ns.length ≤ MAX_ARRAY_LENGTH ∧ ∀ x ∈ ns, x.WF)))

def ReadRequest.byte_len (v : ReadRequest) : Nat :=
  v.request_header.byte_len + 8 + 4 +
    byteLenArray ReadValueId.byte_len v.nodes_to_read

def ReadRequest.encode (v : ReadRequest) : Bytes :=
  v.request_header.encode ++ encDouble v.max_age ++
    encTimestampsToReturn v.timestamps_to_return ++
    encArray ReadValueId.encode v.nodes_to_read

def ReadRequest.decode (b : Bytes) : DecRes ReadRequest :=
  match RequestHeader.decode b with
  | .error e => .error e
  | .ok (request_header, b) =>
    match decDouble b with
    | .error e => .error e
    | .ok (max_age, b) =>
      match decTimestampsToReturn b with
      | .error e => .error e
      | .ok (timestamps_to_return, b) =>
        match decArray ReadValueId.decode b with
        | .error e => .error e
        | .ok (nodes_to_read, b) =>
          .ok ({ request_header, max_age, timestamps_to_return,
                 nodes_to_read }, b)

theorem readRequest_decode_encode (v : ReadRequest) (h : v.WF) (rest : Bytes) :
    ReadRequest.decode (v.encode ++ rest) = .ok (v, rest) := by
  obtain ⟨f1, f2, f3, f4⟩ := v
  obtain ⟨h1, h2, h4⟩ := h
  simp only [ReadRequest.encode, List.append_assoc, ReadRequest.decode,
    requestHeader_decode_encode _ h1, decDouble_enc _ h2,
    decTimestampsToReturn_enc,
    decArray_enc ReadValueId.decode ReadValueId.encode f4 _
      (fun ns hns => (h4 ns hns).1)
      (fun ns hns x hx r => readValueId_decode_encode x ((h4 ns hns).2 x hx) r)]

theorem readRequest_length_encode (v : ReadRequest) :
    v.encode.length = v.byte_len := by
  simp only [ReadRequest.encode, ReadRequest.byte_len, List.length_append,
    requestHeader_length_encode, length_encU64, length_encTimestampsToReturn,
    length_encArray ReadValueId.encode ReadValueId.byte_len _
      (fun ns _ x _ => readValueId_length_encode x),
    encDouble]

/-- Modelled from the spec: `ContentFilterElement` is not in the covered
sources.  Its `FilterOperator` is a contiguous enum with 18 values (0..17),
modelled by its numeric value. -/
structure ContentFilterElement where
  filter_operator : Nat
  filter_operands : Option (List ExtensionObject)
  deriving DecidableEq, Repr

def ContentFilterElement.WF (v : ContentFilterElement) : Prop :=
  v.filter_operator < 18 ∧
    (∀ os, v.filter_operands = some os →
      os.length ≤ MAX_ARRAY_LENGTH ∧ ∀ x ∈ os, x.WF)

instance : DecidablePred ContentFilterElement.WF := fun v =>
  inferInstanceAs (Decidable (v.filter_operator < 18 ∧
    (∀ os, v.filter_operands = some os →
      os.length ≤ MAX_ARRAY_LENGTH ∧ ∀ x ∈ os, x.WF)))

def ContentFilterElement.byte_len (v : ContentFilterElement) : Nat :=
  4 + byteLenArray byteLenExtensionObject v.filter_operands

def ContentFilterElement.encode (v : ContentFilterElement) : Bytes :=
  encI32 v.filter_operator ++ encArray encExtensionObject v.filter_operands

def ContentFilterElement.decode (b : Bytes) : DecRes ContentFilterElement :=
  match decI32 b with
  | .error e => .error e
  | .ok (op, b) =>
    if h : 0 ≤ op ∧ op < 18 then
      match decArray decExtensionObject b with
      | .error e => .error e
      | .ok (filter_operands, b) =>
        .ok ({ filter_operator := op.toNat, filter_operands }, b)
    else .error .BadDecodingError

theorem contentFilterElement_decode_encode (v : ContentFilterElement)
    (h : v.WF) (rest : Bytes) :
    ContentFilterElement.decode (v.encode ++ rest) = .ok (v, rest) := by
  obtain ⟨f1, f2⟩ := v
  obtain ⟨h1, h2⟩ := h
  simp only [ContentFilterElement.WF] at h1
  simp only [ContentFilterElement.encode, List.append_assoc,
    ContentFilterElement.decode,
    decI32_encI32 (f1 : Int) (by omega) (by omega),
    decArray_enc decExtensionObject encExtensionObject f2 _
      (fun os hos => (h2 os hos).1)
      (fun os hos x hx r => decExtensionObject_enc x ((h2 os hos).2 x hx) r)]
  rw [dif_pos (by omega)]
  simp

theorem contentFilterElement_length_encode (v : ContentFilterElement) :
    v.encode.length = v.byte_len := by
  simp only [ContentFilterElement.encode, ContentFilterElement.byte_len,
    List.length_append, length_encI32,
    length_encArray encExtensionObject byteLenExtensionObject _
      (fun os _ x _ => length_encExtensionObject x)]

/-- `ContentFilter` (src/types/src/service_types/content_filter.rs). -/
structure ContentFilter where
  elements : Option (List ContentFilterElement)
  deriving DecidableEq, Repr

def ContentFilter.WF (v : ContentFilter) : Prop :=
  ∀ es, v.elements = some es →
    es.length ≤ MAX_ARRAY_LENGTH ∧ ∀ x ∈ es, x.WF

instance : DecidablePred ContentFilter.WF := fun v =>
  inferInstanceAs (Decidable (∀ es, v.elements = some es →
    es.length ≤ MAX_ARRAY_LENGTH ∧ ∀ x ∈ es, x.WF))

def ContentFilter.byte_len (v : ContentFilter) : Nat :=
  byteLenArray ContentFilterElement.byte_len v.elements

def ContentFilter.encode (v : ContentFilter) : Bytes :=
  encArray ContentFilterElement.encode v.elements

def ContentFilter.decode (b : Bytes) : DecRes ContentFilter :=
  match decArray ContentFilterElement.decode b with
  | .error e => .error e
  | .ok (elements, b) => .ok ({ elements }, b)

theorem contentFilter_decode_encode (v : ContentFilter) (h : v.WF)
    (rest : Bytes) : ContentFilter.decode (v.encode ++ rest) = .ok (v, rest) := by
  obtain ⟨f1⟩ := v
  simp only [ContentFilter.WF] at h
  simp only [ContentFilter.encode, ContentFilter.decode,
    decArray_enc ContentFilterElement.decode ContentFilterElement.encode f1 _
      (fun es hes => (h es hes).1)
      (fun es hes x hx r => contentFilterElement_decode_encode x ((h es hes).2 x hx) r)]

theorem contentFilter_length_encode (v : ContentFilter) :
    v.encode.length = v.byte_len := by
  simp only [ContentFilter.encode, ContentFilter.byte_len,
    length_encArray ContentFilterElement.encode ContentFilterElement.byte_len _
      (fun es _ x _ => contentFilterElement_length_encode x)]

/-! ## Address space: attributes and `Base`

Translated from src/server/src/address_space/base.rs.  The 22 attribute
identifiers and their numeric values (`AttributeId` lives in
`opcua_types::attribute`, not in the covered sources) are modelled from the
spec: 22 standardized attributes, table "indexed `attribute_id - 1`", values
per OPC UA Part 4.  `Variant` is modelled with the variants the attribute
type table of `Base::set_attribute` distinguishes (the remaining UA variants
play no role in the covered code paths). -/

inductive AttributeId where
  | nodeId
  | nodeClass
  | browseName
  | displayName
  | description
  | writeMask
  | userWriteMask
  | isAbstract
  | symmetric
  | inverseName
  | containsNoLoops
  | eventNotifier
  | value
  | dataType
  | valueRank
  | arrayDimensions
  | accessLevel
  | userAccessLevel
  | minimumSamplingInterval
  | historizing
  | executable
  | userExecutable
  deriving DecidableEq, Repr

/-- The numeric value of the attribute id (`attribute_id as usize`). -/
def AttributeId.toNat : AttributeId → Nat
  | .nodeId => 1
  | .nodeClass => 2
  | .browseName => 3
  | .displayName => 4
  | .description => 5
  | .writeMask => 6
  | .userWriteMask => 7
  | .isAbstract => 8
  | .symmetric => 9
  | .inverseName => 10
  | .containsNoLoops => 11
  | .eventNotifier => 12
  | .value => 13
  | .dataType => 14
  | .valueRank => 15
  | .arrayDimensions => 16
  | .accessLevel => 17
  | .userAccessLevel => 18
  | .minimumSamplingInterval => 19
  | .historizing => 20
  | .executable => 21
  | .userExecutable => 22

/-- `NUM_ATTRIBUTES` (src/server/src/address_space/base.rs line 15). -/
def NUM_ATTRIBUTES : Nat := 22

mutual
/-- The variants of `opcua_types::variant::Variant` that
`Base::set_attribute`'s type table distinguishes.  `double` carries the
IEEE-754 bit pattern. -/
inductive Variant where
  | boolean (b : Bool)
  | byte (n : Nat)
  | int32 (i : Int)
  | uint32 (n : Nat)
  | double (bits : UADouble)
  | string (s : UAString)
  | localizedText (t : LocalizedText)
  | qualifiedName (q : QualifiedName)
  | nodeId (n : NodeId)
  | array (xs : VariantList)

inductive VariantList where
  | nil
  | cons (x : Variant) (xs : VariantList)
end

/-- Fold used to state "`array.iter().find(|v| not a UInt32)` is none". -/
def VariantList.all (p : Variant → Bool) : VariantList → Bool
  | .nil => true
  | .cons x xs => p x && VariantList.all p xs

mutual
def Variant.beq : Variant → Variant → Bool
  | .boolean a, .boolean b => a == b
  | .byte a, .byte b => a == b
  | .int32 a, .int32 b => a == b
  | .uint32 a, .uint32 b => a == b
  | .double a, .double b => a == b
  | .string a, .string b => a == b
  | .localizedText a, .localizedText b => a == b
  | .qualifiedName a, .qualifiedName b => a == b
  | .nodeId a, .nodeId b => a == b
  | .array a, .array b => VariantList.beq a b
  | _, _ => false

def VariantList.beq : VariantList → VariantList → Bool
  | .nil, .nil => true
  | .cons x xs, .cons y ys => Variant.beq x y && VariantList.beq xs ys
  | _, _ => false
end

mutual
theorem variant_beq_iff (a b : Variant) : Variant.beq a b = true ↔ a = b := by
  cases a <;> cases b <;>
    simp only [Variant.beq, beq_iff_eq, Variant.array.injEq] <;>
    first
      | rfl
      | (intro h; cases h)
      | simp
      | exact variantList_beq_iff ..

theorem variantList_beq_iff (a b : VariantList) : VariantList.beq a b = true ↔ a = b := by
  cases a <;> cases b <;>
    simp only [VariantList.beq, Bool.and_eq_true, VariantList.cons.injEq] <;>
    first
      | simp
      | (constructor
         · rintro ⟨h1, h2⟩
           exact ⟨(variant_beq_iff ..).mp h1, (variantList_beq_iff ..).mp h2⟩
         · rintro ⟨rfl, rfl⟩
           exact ⟨(variant_beq_iff ..).mpr rfl, (variantList_beq_iff ..).mpr rfl⟩)
end

instance : DecidableEq Variant := fun a b =>
  decidable_of_iff (Variant.beq a b = true) (variant_beq_iff a b)

instance : DecidableEq VariantList := fun a b =>
  decidable_of_iff (VariantList.beq a b = true) (variantList_beq_iff a b)

/-- `opcua_types::data_value::DataValue` (timestamps as DateTime ticks). -/
structure DataValue where
  value : Option Variant
  status : Option StatusCode
  server_timestamp : Option UADateTime
  server_picoseconds : Option Int
  source_timestamp : Option UADateTime
  source_picoseconds : Option Int
  deriving DecidableEq

/-- An `AttributeGetter` callback (`fn get(node_id, attribute_id)`). -/
def AttributeGetter := NodeId → AttributeId → Except StatusCode (Option DataValue)

/-- An `AttributeSetter` callback (`fn set(node_id, attribute_id, value)`). -/
def AttributeSetter := NodeId → AttributeId → DataValue → Except StatusCode Unit

/-- `Base` (src/server/src/address_space/base.rs): the attribute table plus
the optional per-attribute getter/setter maps. -/
structure Base where
  attributes : List (Option DataValue)
  attribute_getters : AttributeId → Option AttributeGetter
  attribute_setters : AttributeId → Option AttributeSetter

/-- `Base::attribute_idx` (base.rs lines 257-260): `attribute_id as usize - 1`. -/
def Base.attribute_idx (attribute_id : AttributeId) : Nat :=
  attribute_id.toNat - 1

/-- The `is_valid_value_type!`-based type table of `Base::set_attribute`
(base.rs lines 136-186), as a Boolean predicate: `true` iff the data value's
variant matches the attribute's required type (NodeId and NodeClass admit no
type at all; a `None` value is always invalid; ArrayDimensions additionally
requires every array element to be a UInt32).  The `panic!` arm of the
ArrayDimensions branch is unreachable because the array check precedes it. -/
def typeIsValid (attribute_id : AttributeId) (value : DataValue) : Bool :=
  match attribute_id with
  | .nodeId | .nodeClass => false
  | .browseName =>
    match value.value with | some (.string _) => true | _ => false
  | .displayName | .description | .inverseName =>
    match value.value with | some (.localizedText _) => true | _ => false
  | .writeMask | .userWriteMask =>
    match value.value with | some (.uint32 _) => true | _ => false
  | .isAbstract | .symmetric | .containsNoLoops | .historizing
  | .executable | .userExecutable =>
    match value.value with | some (.boolean _) => true | _ => false
  | .eventNotifier | .accessLevel | .userAccessLevel =>
    match value.value with | some (.byte _) => true | _ => false
  | .dataType =>
    match value.value with | some (.nodeId _) => true | _ => false
  | .valueRank =>
    match value.value with | some (.int32 _) => true | _ => false
  | .arrayDimensions =>
    match value.value with
    | some (.array xs) =>
      VariantList.all (fun v => match v with | .uint32 _ => true | _ => false) xs
    | _ => false
  | .minimumSamplingInterval =>
    match value.value with | some (.double _) => true | _ => false
  | .value => true

/-- `Node::node_id` for `Base` (base.rs lines 74-77): reads the mandatory
NodeId attribute and panics (`none`) when it is missing or mistyped.  A
getter registered for the NodeId attribute would make the source recurse
without terminating; that doomed configuration is also mapped to `none`. -/
def Base.node_id (b : Base) : Option NodeId :=
  match b.attribute_getters .nodeId with
  | some _ => none
  | none =>
    if Base.attribute_idx .nodeId ≥ b.attributes.length then none
    else
      match b.attributes.getD (Base.attribute_idx .nodeId) none with
      | some dv =>
        match dv.value with
        | some (.nodeId n) => some n
        | _ => none
      | none => none

/-- `Base::find_attribute` (base.rs lines 114-132): consult the getter if
one is registered (errors collapse to `None`), else read the table slot,
with the out-of-range guard. -/
def Base.find_attribute (b : Base) (attribute_id : AttributeId) :
    Option DataValue :=
  match b.attribute_getters attribute_id with
  | some getter =>
    match b.node_id with
    | none => none
    | some nid =>
      match getter nid attribute_id with
      | .ok value => value
      | .error _ => none
  | none =>
    let attribute_idx := Base.attribute_idx attribute_id
    if attribute_idx ≥ b.attributes.length then none
    else b.attributes.getD attribute_idx none

/-- `Base::set_attribute` (base.rs lines 134-199).  Returns `none` for the
panics of the source (unguarded indexing out of bounds; the `node_id()`
panic inside a setter call), otherwise the `Result` paired with the new
state (unchanged on error). -/
def Base.set_attribute (b : Base) (attribute_id : AttributeId)
    (value : DataValue) : Option (Except StatusCode Unit × Base) :=
  if ¬ typeIsValid attribute_id value then
    some (.error .BadTypeMismatch, b)
  else
    let attribute_idx := Base.attribute_idx attribute_id
    match b.attribute_setters attribute_id with
    | some setter =>
      match b.node_id with
      | none => none
      | some nid =>
        match setter nid attribute_id value with
        | .ok _ => some (.ok (), b)
        | .error e => some (.error e, b)
    | none =>
      if attribute_idx < b.attributes.length then
        some (.ok (), { b with
          attributes := b.attributes.set attribute_idx (some value) })
      else none

/-- `Base::new` (base.rs lines 203-236): the mandatory attributes plus the
caller's, folded into a fresh 22-slot table (`now` passes the
`DateTime::now()` the constructor takes from the clock). -/
def Base.new (node_class : Int) (node_id : NodeId) (browse_name : UAString)
    (display_name : UAString) (description : UAString)
    (attributes : List (AttributeId × Variant)) (now : UADateTime) : Base :=
  let attributes_to_add : List (AttributeId × Variant) :=
    [(.nodeClass, .int32 node_class),
     (.nodeId, .nodeId node_id),
     (.displayName, .localizedText ⟨some [], display_name⟩),
     (.browseName, .qualifiedName ⟨0, browse_name⟩),
     (.description, .localizedText ⟨some [], description⟩),
     (.writeMask, .uint32 0),
     (.userWriteMask, .uint32 0)] ++ attributes
  let table := attributes_to_add.foldl
    (fun table p =>
      table.set (Base.attribute_idx p.1)
        (some { value := some p.2, status := some .Good,
                server_timestamp := some now, server_picoseconds := some 0,
                source_timestamp := some now, source_picoseconds := some 0 }))
    (List.replicate NUM_ATTRIBUTES none)
  { attributes := table,
    attribute_getters := fun _ => none,
    attribute_setters := fun _ => none }

/-! ## The Call service

`MethodService::call` is translated from src/server/src/services/method.rs
lines 22-56.  The service types it consumes and produces
(`CallMethodRequest`, `CallMethodResult`, `CallRequest`, `CallResponse`,
`ServiceFault`, `ResponseHeader`) and the `Service::service_fault` helper
are modelled from the spec ("a service fault carries the request's
ResponseHeader with `service_result` set and all payload fields absent").
`constants::MAX_METHOD_CALLS` and `AddressSpace::call_method` are not in
the covered sources either, so `call` is parameterized by the cap value and
by the address-space method-dispatch function. -/

structure CallMethodRequest where
  object_id : NodeId
  method_id : NodeId
  input_arguments : Option (List Variant)
  deriving DecidableEq

structure CallMethodResult where
  status_code : StatusCode
  input_argument_results : Option (List StatusCode)
  input_argument_diagnostic_infos : Option (List Unit)
  output_arguments : Option (List Variant)
  deriving DecidableEq

structure ResponseHeader where
  request_handle : Nat
  service_result : StatusCode
  deriving DecidableEq

/-- `ResponseHeader::new_good`. -/
def ResponseHeader.new_good (h : RequestHeader) : ResponseHeader :=
  { request_handle := h.request_handle, service_result := .Good }

/-- `ResponseHeader::new_service_result`. -/
def ResponseHeader.new_service_result (h : RequestHeader)
    (service_result : StatusCode) : ResponseHeader :=
  { request_handle := h.request_handle, service_result }

structure CallRequest where
  request_header : RequestHeader
  methods_to_call : Option (List CallMethodRequest)
  deriving DecidableEq

structure CallResponse where
  response_header : ResponseHeader
  results : Option (List CallMethodResult)
  diagnostic_infos : Option (List Unit)
  deriving DecidableEq

structure ServiceFault where
  response_header : ResponseHeader
  deriving DecidableEq

/-- The `SupportedMessage` variants `MethodService::call` can return. -/
inductive CallServiceMessage where
  | callResponse (r : CallResponse)
  | serviceFault (f : ServiceFault)
  deriving DecidableEq

/-- `Service::service_fault`. -/
def Service.service_fault (request_header : RequestHeader)
    (service_result : StatusCode) : CallServiceMessage :=
  .serviceFault ⟨ResponseHeader.new_service_result request_header service_result⟩

/-- The per-element step of `MethodService::call`'s `map` (method.rs lines
27-43): a handler error becomes a `CallMethodResult` carrying the status
code. -/
def callMethodOrError
    (call_method : CallMethodRequest → Except StatusCode CallMethodResult)
    (request : CallMethodRequest) : CallMethodResult :=
  match call_method request with
  | .ok response => response
  | .error status_code =>
    { status_code, input_argument_results := none,
      input_argument_diagnostic_infos := none, output_arguments := none }

/-- `MethodService::call` (method.rs lines 22-56). -/
def MethodService.call (max_method_calls : Nat)
    (call_method : CallMethodRequest → Except StatusCode CallMethodResult)
    (request : CallRequest) : Except StatusCode CallServiceMessage :=
  match request.methods_to_call with
  | some calls =>
    if calls.length ≥ max_method_calls then
      .ok (Service.service_fault request.request_header .BadTooManyOperations)
    else
      let results := calls.map (callMethodOrError call_method)
      .ok (.callResponse
        { response_header := ResponseHeader.new_good request.request_header,
          results := some results, diagnostic_infos := none })
  | none => .ok (Service.service_fault request.request_header .BadNothingToDo)

/-! ## Server lifecycle (src/server/src/server.rs)

The concurrent pieces of `Server::run` are modelled as a transition system
whose atomic events are exactly the lock-protected blocks of the source:
`Server::abort` (lines 274-278), one body of the accept loop's `for_each`
(lines 253-262, which holds the server write lock across the `is_abort`
check and `handle_connection`), one tick of the abort-poll timer of
`start_abort_poll` (lines 167-192), and environment events that terminate a
connection's session or change whether its lock can be taken when the
reaper runs. -/

namespace ServerModel

structure Connection where
  session_terminated : Bool
  lock_available : Bool
  deriving DecidableEq, Repr

structure ServerSt where
  abort : Bool
  connections : List Connection
  stop_sent : Bool
  deriving DecidableEq, Repr

/-- `Server::remove_dead_connections` (server.rs lines 286-299): retain a
connection when its read lock cannot be taken, or when its session is not
terminated. -/
def remove_dead_connections (connections : List Connection) : List Connection :=
  connections.filter
    (fun connection =>
      if connection.lock_available then ! connection.session_terminated
      else true)

inductive Event where
  | abortRequest
  | acceptSocket
  | pollTick
  | terminateSession (i : Nat)
  | setLockAvailable (i : Nat) (available : Bool)
  deriving DecidableEq, Repr

def step : Event → ServerSt → ServerSt
  | .abortRequest, s => { s with abort := true }
  | .acceptSocket, s =>
    -- after the stop signal the completion pact has ended the accept stream
    if s.stop_sent then s
    else if s.abort then s  -- "Server is aborting so it will not accept new connections"
    else { s with connections := s.connections ++ [⟨false, true⟩] }
  | .pollTick, s =>
    if s.abort then
      if (remove_dead_connections s.connections).isEmpty then
        { s with connections := remove_dead_connections s.connections,
                 stop_sent := true }
      else { s with connections := remove_dead_connections s.connections }
    else s
  | .terminateSession i, s =>
    match s.connections.get? i with
    | some c =>
      { s with connections :=
          s.connections.set i { c with session_terminated := true } }
    | none => s
  | .setLockAvailable i available, s =>
    match s.connections.get? i with
    | some c =>
      { s with connections :=
          s.connections.set i { c with lock_available := available } }
    | none => s

end ServerModel

/-! ## Message buffer (src/core/src/comms/message_buffer.rs)

`MessageBuffer::store_bytes` is translated from lines 32-67.  The handshake
types it uses (`MESSAGE_HEADER_LEN`, `MessageType`, `MessageHeader` and the
message decoders in `opcua_core::comms::handshake` /
`comms::message_chunk`) are not in the covered sources and are modelled
from the spec: an 8-byte header of 3 ASCII type bytes
("HEL"/"ACK"/"ERR"/"MSG"/"OPN"/"CLO", anything else being invalid), one
is-final byte, and a u32-LE `message_size` inclusive of the header; a Hello
body of five u32 fields and the endpoint url string, an Acknowledge body of
five u32 fields, an Error body of a u32 status and a reason string, and a
chunk kept as its raw bytes. -/

def MESSAGE_HEADER_LEN : Nat := 8

inductive MessageType where
  | Hello
  | Acknowledge
  | Error
  | Chunk
  | Invalid
  deriving DecidableEq, Repr

/-- "HEL" = 72 69 76, "ACK" = 65 67 75, "ERR" = 69 82 82,
"MSG" = 77 83 71, "OPN" = 79 80 78, "CLO" = 67 76 79. -/
def messageTypeOfBytes (t0 t1 t2 : Nat) : MessageType :=
  if t0 = 72 ∧ t1 = 69 ∧ t2 = 76 then .Hello
  else if t0 = 65 ∧ t1 = 67 ∧ t2 = 75 then .Acknowledge
  else if t0 = 69 ∧ t1 = 82 ∧ t2 = 82 then .Error
  else if (t0 = 77 ∧ t1 = 83 ∧ t2 = 71) ∨ (t0 = 79 ∧ t1 = 80 ∧ t2 = 78) ∨
          (t0 = 67 ∧ t1 = 76 ∧ t2 = 79) then .Chunk
  else .Invalid

structure MessageHeader where
  message_type : MessageType
  is_final : Nat
  message_size : Nat
  deriving DecidableEq, Repr

def MessageHeader.decode : Bytes → Except StatusCode (MessageHeader × Bytes)
  | t0 :: t1 :: t2 :: f :: s0 :: s1 :: s2 :: s3 :: rest =>
    .ok ({ message_type := messageTypeOfBytes t0 t1 t2, is_final := f,
           message_size := s0 + 256 * s1 + 65536 * s2 + 16777216 * s3 }, rest)
  | _ => .error .BadDecodingError

theorem messageHeader_decode_ok_length {b : Bytes} {h : MessageHeader × Bytes}
    (hd : MessageHeader.decode b = .ok h) : MESSAGE_HEADER_LEN ≤ b.length := by
  unfold MessageHeader.decode at hd
  split at hd
  · simp only [List.length_cons, MESSAGE_HEADER_LEN]
    omega
  · exact absurd hd (by simp)

structure HelloMessage where
  message_header : MessageHeader
  protocol_version : Nat
  receive_buffer_size : Nat
  send_buffer_size : Nat
  max_message_size : Nat
  max_chunk_count : Nat
  endpoint_url : UAString
  deriving DecidableEq, Repr

def HelloMessage.decode (b : Bytes) : Except StatusCode HelloMessage :=
  match MessageHeader.decode b with
  | .error e => .error e
  | .ok (message_header, b) =>
    match decU32 b with
    | .error e => .error e
    | .ok (protocol_version, b) =>
      match decU32 b with
      | .error e => .error e
      | .ok (receive_buffer_size, b) =>
        match decU32 b with
        | .error e => .error e
        | .ok (send_buffer_size, b) =>
          match decU32 b with
          | .error e => .error e
          | .ok (max_message_size, b) =>
            match decU32 b with
            | .error e => .error e
            | .ok (max_chunk_count, b) =>
              match decUAString b with
              | .error e => .error e
              | .ok (endpoint_url, _) =>
                .ok { message_header, protocol_version, receive_buffer_size,
                      send_buffer_size, max_message_size, max_chunk_count,
                      endpoint_url }

structure AcknowledgeMessage where
  message_header : MessageHeader
  protocol_version : Nat
  receive_buffer_size : Nat
  send_buffer_size : Nat
  max_message_size : Nat
  max_chunk_count : Nat
  deriving DecidableEq, Repr

def AcknowledgeMessage.decode (b : Bytes) : Except StatusCode AcknowledgeMessage :=
  match MessageHeader.decode b with
  | .error e => .error e
  | .ok (message_header, b) =>
    match decU32 b with
    | .error e => .error e
    | .ok (protocol_version, b) =>
      match decU32 b with
      | .error e => .error e
      | .ok (receive_buffer_size, b) =>
        match decU32 b with
        | .error e => .error e
        | .ok (send_buffer_size, b) =>
          match decU32 b with
          | .error e => .error e
          | .ok (max_message_size, b) =>
            match decU32 b with
            | .error e => .error e
            | .ok (max_chunk_count, _) =>
              .ok { message_header, protocol_version, receive_buffer_size,
                    send_buffer_size, max_message_size, max_chunk_count }

structure ErrorMessage where
  message_header : MessageHeader
  error : Nat
  reason : UAString
  deriving DecidableEq, Repr

def ErrorMessage.decode (b : Bytes) : Except StatusCode ErrorMessage :=
  match MessageHeader.decode b with
  | .error e => .error e
  | .ok (message_header, b) =>
    match decU32 b with
    | .error e => .error e
    | .ok (error, b) =>
      match decUAString b with
      | .error e => .error e
      | .ok (reason, _) => .ok { message_header, error, reason }

/-- A chunk is kept as its raw framed bytes, header included. -/
structure MessageChunk where
  data : Bytes
  deriving DecidableEq, Repr

def MessageChunk.decode (b : Bytes) : Except StatusCode MessageChunk :=
  match MessageHeader.decode b with
  | .error e => .error e
  | .ok (message_header, _) =>
    if b.length < message_header.message_size then .error .BadDecodingError
    else .ok { data := b.take message_header.message_size }

/-- `Message` (message_buffer.rs lines 11-17). -/
inductive Message where
  | Hello (m : HelloMessage)
  | Acknowledge (m : AcknowledgeMessage)
  | Error (m : ErrorMessage)
  | MessageChunk (m : MessageChunk)
  deriving DecidableEq, Repr

/-- The match on `message_header.message_type` inside `store_bytes`
(message_buffer.rs lines 56-62), including its `BadCommunicationError`
fallback arm. -/
def decodeStoredMessage (t : MessageType) (message_buffer : Bytes) :
    Except StatusCode Message :=
  match t with
  | .Acknowledge =>
    match AcknowledgeMessage.decode message_buffer with
    | .ok m => .ok (.Acknowledge m)
    | .error e => .error e
  | .Hello =>
    match HelloMessage.decode message_buffer with
    | .ok m => .ok (.Hello m)
    | .error e => .error e
  | .Error =>
    match ErrorMessage.decode message_buffer with
    | .ok m => .ok (.Error m)
    | .error e => .error e
  | .Chunk =>
    match MessageChunk.decode message_buffer with
    | .ok m => .ok (.MessageChunk m)
    | .error e => .error e
  | .Invalid => .error .BadCommunicationError

theorem acknowledgeMessage_decode_ok_length {b : Bytes} {m : AcknowledgeMessage}
    (hd : AcknowledgeMessage.decode b = .ok m) : MESSAGE_HEADER_LEN ≤ b.length := by
  unfold AcknowledgeMessage.decode at hd
  split at hd
  all_goals first
    | exact messageHeader_decode_ok_length (by assumption)
    | exact absurd hd (by simp)

theorem helloMessage_decode_ok_length {b : Bytes} {m : HelloMessage}
    (hd : HelloMessage.decode b = .ok m) : MESSAGE_HEADER_LEN ≤ b.length := by
  unfold HelloMessage.decode at hd
  split at hd
  all_goals first
    | exact messageHeader_decode_ok_length (by assumption)
    | exact absurd hd (by simp)

theorem errorMessage_decode_ok_length {b : Bytes} {m : ErrorMessage}
    (hd : ErrorMessage.decode b = .ok m) : MESSAGE_HEADER_LEN ≤ b.length := by
  unfold ErrorMessage.decode at hd
  split at hd
  all_goals first
    | exact messageHeader_decode_ok_length (by assumption)
    | exact absurd hd (by simp)

theorem messageChunk_decode_ok_length {b : Bytes} {m : MessageChunk}
    (hd : MessageChunk.decode b = .ok m) : MESSAGE_HEADER_LEN ≤ b.length := by
  unfold MessageChunk.decode at hd
  split at hd
  all_goals first
    | exact messageHeader_decode_ok_length (by assumption)
    | exact absurd hd (by simp)

theorem decodeStoredMessage_ok_length {t : MessageType} {b : Bytes}
    {m : Message} (hd : decodeStoredMessage t b = .ok m) :
    MESSAGE_HEADER_LEN ≤ b.length := by
  cases t with
  | Acknowledge =>
    simp only [decodeStoredMessage] at hd
    split at hd
    all_goals first
      | exact acknowledgeMessage_decode_ok_length (by assumption)
      | exact absurd hd (by simp)
  | Hello =>
    simp only [decodeStoredMessage] at hd
    split at hd
    all_goals first
      | exact helloMessage_decode_ok_length (by assumption)
      | exact absurd hd (by simp)
  | Error =>
    simp only [decodeStoredMessage] at hd
    split at hd
    all_goals first
      | exact errorMessage_decode_ok_length (by assumption)
      | exact absurd hd (by simp)
  | Chunk =>
    simp only [decodeStoredMessage] at hd
    split at hd
    all_goals first
      | exact messageChunk_decode_ok_length (by assumption)
      | exact absurd hd (by simp)
  | Invalid => exact absurd hd (by simp [decodeStoredMessage])

/-- The `while` loop of `store_bytes` (message_buffer.rs lines 39-64),
carrying the `messages` accumulator.  The loop runs while strictly more
than `MESSAGE_HEADER_LEN` bytes are buffered; it breaks - retaining the
buffer - when fewer bytes than the announced `message_size` are present,
and otherwise drains exactly `message_size` bytes, decodes them and
continues. -/
def storeLoop (buf : Bytes) (messages : List Message) :
    Except StatusCode (List Message × Bytes) :=
  if hlen : MESSAGE_HEADER_LEN < buf.length then
    match MessageHeader.decode buf with
    | .error e => .error e
    | .ok (message_header, _) =>
      if buf.length < message_header.message_size then
        .ok (messages, buf)
      else
        match hm : decodeStoredMessage message_header.message_type
            (buf.take message_header.message_size) with
        | .error e => .error e
        | .ok message =>
          storeLoop (buf.drop message_header.message_size)
            (messages ++ [message])
  else
    .ok (messages, buf)
termination_by buf.length
decreasing_by
  have h8 := decodeStoredMessage_ok_length hm
  simp only [List.length_take, MESSAGE_HEADER_LEN] at h8
  simp only [List.length_drop, MESSAGE_HEADER_LEN] at hlen ⊢
  omega

/-- `MessageBuffer` (message_buffer.rs lines 20-22). -/
structure MessageBuffer where
  in_buffer : Bytes
  deriving DecidableEq, Repr

/-- `MessageBuffer::new` (the capacity only pre-allocates). -/
def MessageBuffer.new : MessageBuffer := ⟨[]⟩

/-- `MessageBuffer::store_bytes` (message_buffer.rs lines 32-67): append
the received bytes, then peel off complete messages.  On the error path
the source keeps the partially drained buffer in `&mut self`; no covered
claim observes the buffer after an error, so the model returns the error
alone. -/
def MessageBuffer.store_bytes (mb : MessageBuffer) (bytes : Bytes) :
    Except StatusCode (List Message × MessageBuffer) :=
  match storeLoop (mb.in_buffer ++ bytes) [] with
  | .error e => .error e
  | .ok (messages, buf) => .ok (messages, ⟨buf⟩)

/-- When the loop returns `Ok`, the retained buffer holds at most a header,
or strictly less than what the header at its front announces. -/
theorem storeLoop_retained {buf : Bytes} {acc msgs : List Message} {ret : Bytes}
    (h : storeLoop buf acc = .ok (msgs, ret)) :
    ret.length ≤ MESSAGE_HEADER_LEN ∨
    ∃ hdr r, MessageHeader.decode ret = .ok (hdr, r) ∧
      ret.length < hdr.message_size := by
  induction buf, acc using storeLoop.induct with
  | case1 buf acc hlen e hdec =>
    rw [storeLoop, dif_pos hlen] at h
    simp only [hdec] at h
    simp at h
  | case2 buf acc hlen mh b hdec hsz =>
    rw [storeLoop, dif_pos hlen] at h
    simp only [hdec, if_pos hsz, Except.ok.injEq, Prod.mk.injEq] at h
    obtain ⟨-, rfl⟩ := h
    exact Or.inr ⟨mh, b, hdec, hsz⟩
  | case3 buf acc hlen mh b hdec hsz e hm =>
    rw [storeLoop, dif_pos hlen] at h
    simp only [hdec, if_neg hsz] at h
    split at h
    · simp at h
    · next message' heq =>
      rw [hm] at heq
      cases heq
  | case4 buf acc hlen mh b hdec hsz message hm ih =>
    rw [storeLoop, dif_pos hlen] at h
    simp only [hdec, if_neg hsz] at h
    split at h
    · simp at h
    · next message' heq =>
      rw [hm] at heq
      injection heq with heq2
      subst heq2
      exact ih h
  | case5 buf acc hlen =>
    rw [storeLoop, dif_neg hlen] at h
    simp only [Except.ok.injEq, Prod.mk.injEq] at h
    obtain ⟨-, rfl⟩ := h
    exact Or.inl (by omega)

/-- The loop only appends to its accumulator. -/
theorem storeLoop_append_acc {buf : Bytes} {acc msgs : List Message}
    {ret : Bytes} (h : storeLoop buf acc = .ok (msgs, ret)) :
    ∃ tail, msgs = acc ++ tail := by
  induction buf, acc using storeLoop.induct with
  | case1 buf acc hlen e hdec =>
    rw [storeLoop, dif_pos hlen] at h
    simp only [hdec] at h
    simp at h
  | case2 buf acc hlen mh b hdec hsz =>
    rw [storeLoop, dif_pos hlen] at h
    simp only [hdec, if_pos hsz, Except.ok.injEq, Prod.mk.injEq] at h
    exact ⟨[], by simp [h.1.symm]⟩
  | case3 buf acc hlen mh b hdec hsz e hm =>
    rw [storeLoop, dif_pos hlen] at h
    simp only [hdec, if_neg hsz] at h
    split at h
    · simp at h
    · next message' heq =>
      rw [hm] at heq
      cases heq
  | case4 buf acc hlen mh b hdec hsz message hm ih =>
    rw [storeLoop, dif_pos hlen] at h
    simp only [hdec, if_neg hsz] at h
    split at h
    · simp at h
    · next message' heq =>
      rw [hm] at heq
      injection heq with heq2
      subst heq2
      obtain ⟨tail, htail⟩ := ih h
      exact ⟨message :: tail, by simp [htail]⟩
  | case5 buf acc hlen =>
    rw [storeLoop, dif_neg hlen] at h
    simp only [Except.ok.injEq, Prod.mk.injEq] at h
    exact ⟨[], by simp [h.1.symm]⟩

/-- The 8-byte chunk message with an empty body: "MSG", final flag 'F',
`message_size` = 8 = MESSAGE_HEADER_LEN. -/
def emptyBodyChunk : Bytes := [77, 83, 71, 70, 8, 0, 0, 0]

theorem storeLoop_emptyBodyChunk_exact :
    storeLoop emptyBodyChunk [] = .ok ([], emptyBodyChunk) := by
  rw [storeLoop]
  norm_num [MESSAGE_HEADER_LEN, emptyBodyChunk]

/-- With at least one byte buffered beyond the 8-byte message, the loop
drains and decodes it and continues on the remainder. -/
theorem storeLoop_emptyBodyChunk_more (rest : Bytes) (hne : rest ≠ []) :
    storeLoop (emptyBodyChunk ++ rest) [] =
      storeLoop rest [.MessageChunk ⟨emptyBodyChunk⟩] := by
  rw [storeLoop]
  have hlen : MESSAGE_HEADER_LEN < (emptyBodyChunk ++ rest).length := by
    simp [MESSAGE_HEADER_LEN, emptyBodyChunk]
    exact List.length_pos.mpr hne
  rw [dif_pos hlen]
  simp only [emptyBodyChunk, List.cons_append, List.nil_append, MessageHeader.decode]
  rw [if_neg (by simp)]
  have hdec : decodeStoredMessage (messageTypeOfBytes 77 83 71)
      (List.take (8 + 256 * 0 + 65536 * 0 + 16777216 * 0)
        (77 :: 83 :: 71 :: 70 :: 8 :: 0 :: 0 :: 0 :: rest)) =
      .ok (.MessageChunk ⟨[77, 83, 71, 70, 8, 0, 0, 0]⟩) := by
    have h2 : (77 :: 83 :: 71 :: 70 :: 8 :: 0 :: 0 :: 0 :: rest) =
        [77, 83, 71, 70, 8, 0, 0, 0] ++ rest := rfl
    rw [h2, List.take_left' (by norm_num)]
    decide
  split
  · next e heq => rw [hdec] at heq; cases heq
  · next message heq =>
    rw [hdec] at heq
    injection heq with heq2
    subst heq2
    rfl

/-! ## Concrete sample values used by the witnesses -/

def sampleNodeId : NodeId := ⟨0, .numeric 5⟩

def sampleRequestHeader : RequestHeader :=
  { authentication_token := ⟨0, .numeric 0⟩, timestamp := 0, request_handle := 1,
    return_diagnostics := 0, audit_entry_id := none, timeout_hint := 0,
    additional_header := ⟨⟨0, .numeric 0⟩, .null⟩ }

def sampleCall : CallMethodRequest :=
  { object_id := ⟨0, .numeric 1⟩, method_id := ⟨0, .numeric 2⟩,
    input_arguments := none }

/-- A stand-in for `AddressSpace::call_method` that fails every call. -/
def noopCallMethod : CallMethodRequest → Except StatusCode CallMethodResult :=
  fun _ => .error .BadNodeIdUnknown

def sampleDataValue : DataValue :=
  { value := some (.nodeId ⟨0, .numeric 9⟩), status := none,
    server_timestamp := none, server_picoseconds := none,
    source_timestamp := none, source_picoseconds := none }

/-- A String-typed data value ("hi"). -/
def stringDataValue : DataValue :=
  { value := some (.string (some [104, 105])), status := none,
    server_timestamp := none, server_picoseconds := none,
    source_timestamp := none, source_picoseconds := none }

/-- An ObjectType-like node (`ObjectType::new`, object_type.rs lines 12-20):
node class 8 with the mandatory IsAbstract attribute. -/
def plainBase : Base :=
  Base.new 8 sampleNodeId (some [79, 84]) (some [79, 84]) (some [])
    [(.isAbstract, .boolean false)] 0

/-- `plainBase` with an attribute getter registered for the Value attribute
that always reports no value (`Base::set_attribute_getter`). -/
def getterBase : Base :=
  { attributes := plainBase.attributes,
    attribute_getters :=
      fun attribute_id =>
        if attribute_id = .value then some (fun _ _ => .ok none) else none,
    attribute_setters := fun _ => none }

/-- The state `getterBase` reaches after a successful table write of
`sampleDataValue` to the Value attribute (slot index 12). -/
def getterBaseAfter : Base :=
  { getterBase with
    attributes := getterBase.attributes.set 12 (some sampleDataValue) }

/-! ## Claims -/

/-- C1 (amended: the cap check of `MethodService::call` uses `>=`, so the
cap itself already faults; below it the claim holds): for every cap value,
every method dispatch function, and every CallRequest whose
`methods_to_call` is `Some(list)` with `1 <= list.len() < MAX_METHOD_CALLS`,
`MethodService::call` returns Ok of a CallResponse whose `results` is Some
of exactly `list.len()` CallMethodResult entries, the i-th being the result
of the i-th requested call (the mapped list), and no service fault is
produced strictly below the cap. -/
theorem c1_call_batch_results (max_method_calls : Nat)
    (call_method : CallMethodRequest → Except StatusCode CallMethodResult)
    (hdr : RequestHeader) (calls : List CallMethodRequest)
    (h1 : 1 ≤ calls.length) (h2 : calls.length < max_method_calls) :
    MethodService.call max_method_calls call_method
      { request_header := hdr, methods_to_call := some calls } =
      .ok (.callResponse
        { response_header := ResponseHeader.new_good hdr,
          results := some (calls.map (callMethodOrError call_method)),
          diagnostic_infos := none }) ∧
    (calls.map (callMethodOrError call_method)).length = calls.length := by
  constructor
  · simp only [MethodService.call]
    rw [if_neg (by omega : ¬ calls.length ≥ max_method_calls)]
  · simp

theorem c1_call_batch_results_witness :
    (1 ≤ [sampleCall].length ∧ [sampleCall].length < 10) ∧
    (MethodService.call 10 noopCallMethod
      { request_header := sampleRequestHeader, methods_to_call := some [sampleCall] } =
      .ok (.callResponse
        { response_header := ResponseHeader.new_good sampleRequestHeader,
          results := some ([sampleCall].map (callMethodOrError noopCallMethod)),
          diagnostic_infos := none }) ∧
    ([sampleCall].map (callMethodOrError noopCallMethod)).length =
      [sampleCall].length) :=
  ⟨⟨by decide, by decide⟩,
   c1_call_batch_results 10 noopCallMethod sampleRequestHeader [sampleCall]
     (by decide) (by decide)⟩

/-- C1 counterexample: with the cap at 10, a batch of exactly 10 calls
(within the claim's "1 <= len <= MAX_METHOD_CALLS") is answered by a
`BadTooManyOperations` service fault, not by a CallResponse: the comparison
in method.rs line 24 is `>=`, so the fault fires at the cap for every cap
value. -/
theorem c1_call_at_cap_counterexample :
    1 ≤ (List.replicate 10 sampleCall).length ∧
    (List.replicate 10 sampleCall).length ≤ 10 ∧
    MethodService.call 10 noopCallMethod
      { request_header := sampleRequestHeader,
        methods_to_call := some (List.replicate 10 sampleCall) } =
      .ok (Service.service_fault sampleRequestHeader .BadTooManyOperations) ∧
    Service.service_fault sampleRequestHeader .BadTooManyOperations ≠
      .callResponse
        { response_header := ResponseHeader.new_good sampleRequestHeader,
          results := some ((List.replicate 10 sampleCall).map
            (callMethodOrError noopCallMethod)),
          diagnostic_infos := none } := by
  refine ⟨by decide, by decide, ?_, by decide⟩
  decide

/-- C2 (amended: the not-writable attributes fail with `BadTypeMismatch`,
not `BadNotWritable`): for every node and every DataValue,
`set_attribute(NodeId, value)` and `set_attribute(NodeClass, value)` fail,
with StatusCode `BadTypeMismatch`, leaving the attribute table unchanged
(the returned state is the input node itself). -/
theorem c2_node_id_node_class_not_writable (b : Base) (v : DataValue) :
    b.set_attribute .nodeId v = some (.error .BadTypeMismatch, b) ∧
    b.set_attribute .nodeClass v = some (.error .BadTypeMismatch, b) := by
  constructor <;> rfl

/-- C2 counterexample: writing to NodeId fails with `BadTypeMismatch`,
which is not the `BadNotWritable` the claim states (the `!type_is_valid`
branch of base.rs line 188 returns `BadTypeMismatch` for every attribute,
NodeId and NodeClass included). -/
theorem c2_not_writable_counterexample :
    plainBase.set_attribute .nodeId sampleDataValue =
      some (.error .BadTypeMismatch, plainBase) ∧
    StatusCode.BadTypeMismatch ≠ StatusCode.BadNotWritable :=
  ⟨rfl, by decide⟩

/-- C3 (amended: `BadNothingToDo` is produced exactly when
`methods_to_call` is absent (`None`); a present-but-empty batch
`Some([])` is processed normally and yields an Ok CallResponse with zero
results, so no method handler runs in either case): for every positive cap
and every dispatch function. -/
theorem c3_nothing_to_do (max_method_calls : Nat)
    (call_method : CallMethodRequest → Except StatusCode CallMethodResult)
    (hdr : RequestHeader) (hcap : 0 < max_method_calls) :
    MethodService.call max_method_calls call_method
      { request_header := hdr, methods_to_call := none } =
      .ok (Service.service_fault hdr .BadNothingToDo) ∧
    MethodService.call max_method_calls call_method
      { request_header := hdr, methods_to_call := some [] } =
      .ok (.callResponse
        { response_header := ResponseHeader.new_good hdr,
          results := some [], diagnostic_infos := none }) := by
  constructor
  · rfl
  · simp only [MethodService.call]
    rw [if_neg (by simp; omega : ¬ ([] : List CallMethodRequest).length ≥ max_method_calls)]
    rfl

theorem c3_nothing_to_do_witness :
    0 < 10 ∧
    (MethodService.call 10 noopCallMethod
      { request_header := sampleRequestHeader, methods_to_call := none } =
      .ok (Service.service_fault sampleRequestHeader .BadNothingToDo) ∧
    MethodService.call 10 noopCallMethod
      { request_header := sampleRequestHeader, methods_to_call := some [] } =
      .ok (.callResponse
        { response_header := ResponseHeader.new_good sampleRequestHeader,
          results := some [], diagnostic_infos := none })) :=
  ⟨by decide, c3_nothing_to_do 10 noopCallMethod sampleRequestHeader (by decide)⟩

/-- C3 counterexample: a CallRequest with `methods_to_call = Some([])` -
a batch with N = 0 entries to process - is answered by an Ok CallResponse
with `results = Some([])`, not by the `BadNothingToDo` service fault the
claim requires (method.rs line 23 only takes the fault branch when
`methods_to_call` is `None`). -/
theorem c3_empty_batch_counterexample :
    MethodService.call 10 noopCallMethod
      { request_header := sampleRequestHeader, methods_to_call := some [] } =
      .ok (.callResponse
        { response_header := ResponseHeader.new_good sampleRequestHeader,
          results := some [], diagnostic_infos := none }) ∧
    MethodService.call 10 noopCallMethod
      { request_header := sampleRequestHeader, methods_to_call := some [] } ≠
      .ok (Service.service_fault sampleRequestHeader .BadNothingToDo) := by
  constructor
  · rfl
  · decide

/-- C5: for every node, attribute id, and DataValue whose variant type
violates the per-attribute type table of `Base::set_attribute` (for
example a String written to IsAbstract, which requires Boolean),
`set_attribute` returns `Err(BadTypeMismatch)` and the node's observable
state is exactly as before the call (the returned state is the input
node). -/
theorem c5_type_mismatch (b : Base) (attribute_id : AttributeId)
    (v : DataValue) (h : typeIsValid attribute_id v = false) :
    b.set_attribute attribute_id v = some (.error .BadTypeMismatch, b) := by
  simp [Base.set_attribute, h]

theorem c5_type_mismatch_witness :
    typeIsValid .isAbstract stringDataValue = false ∧
    plainBase.set_attribute .isAbstract stringDataValue =
      some (.error .BadTypeMismatch, plainBase) :=
  ⟨by decide, c5_type_mismatch plainBase .isAbstract stringDataValue (by decide)⟩

/-- C6 (amended: restricted to attributes without registered getter or
setter, the per-attribute indirection of base.rs lines 115 and 191 being
consulted first otherwise): if `set_attribute(id, v)` succeeds on a node
with no getter and no setter for `id`, a subsequent `find_attribute(id)`
returns `Some(v)`, and repeating the same successful set leaves the node
in exactly the same observable state. -/
theorem c6_set_then_find (b : Base) (attribute_id : AttributeId)
    (v : DataValue) (b' : Base)
    (hg : b.attribute_getters attribute_id = none)
    (hs : b.attribute_setters attribute_id = none)
    (hset : b.set_attribute attribute_id v = some (.ok (), b')) :
    b'.find_attribute attribute_id = some v ∧
    b'.set_attribute attribute_id v = some (.ok (), b') := by
  unfold Base.set_attribute at hset
  by_cases hv : typeIsValid attribute_id v
  case neg => simp [hv] at hset
  case pos =>
    simp only [hv, not_true_eq_false, if_false, hs] at hset
    by_cases hidx : Base.attribute_idx attribute_id < b.attributes.length
    case neg => simp [hidx] at hset
    case pos =>
      simp only [if_pos hidx, Except.ok.injEq, Option.some.injEq,
        Prod.mk.injEq, true_and] at hset
      subst hset
      constructor
      · unfold Base.find_attribute
        simp only [hg]
        rw [if_neg (by simp only [List.length_set]; omega)]
        simp [List.getD_eq_getElem?_getD, List.getElem?_set_self' , hidx]
      · unfold Base.set_attribute
        simp only [hv, not_true_eq_false, if_false, hs]
        rw [if_pos (by simp only [List.length_set]; omega)]
        simp [List.set_set]

theorem c6_set_then_find_witness :
    (plainBase.attribute_getters .value = none ∧
     plainBase.attribute_setters .value = none ∧
     plainBase.set_attribute .value sampleDataValue =
       some (.ok (), { plainBase with
         attributes := plainBase.attributes.set 12 (some sampleDataValue) })) ∧
    ({ plainBase with
        attributes := plainBase.attributes.set 12 (some sampleDataValue) }.find_attribute
      .value = some sampleDataValue ∧
     { plainBase with
        attributes := plainBase.attributes.set 12 (some sampleDataValue) }.set_attribute
      .value sampleDataValue =
      some (.ok (), { plainBase with
        attributes := plainBase.attributes.set 12 (some sampleDataValue) })) :=
  ⟨⟨rfl, rfl, rfl⟩,
   c6_set_then_find plainBase .value sampleDataValue _ rfl rfl rfl⟩

/-- C6 counterexample: a node carrying an attribute getter for the Value
attribute that reports no value.  `set_attribute(Value, v)` succeeds (no
setter is registered, so the table slot is written), but the subsequent
`find_attribute(Value)` consults the getter and returns `None`, not
`Some(v)`: the claim fails on nodes that use the per-attribute getter
indirection. -/
theorem c6_getter_counterexample :
    getterBase.set_attribute .value sampleDataValue =
      some (.ok (), getterBaseAfter) ∧
    getterBaseAfter.find_attribute .value = none ∧
    (none : Option DataValue) ≠ some sampleDataValue := by
  refine ⟨rfl, ?_, by decide⟩
  rfl

/-- C10: every valid AttributeId maps under `Base::attribute_idx` to
`attribute_id - 1 < NUM_ATTRIBUTES = 22`; hence on every node whose
attribute table has the constructed length 22, the unguarded
`self.attributes[attribute_idx]` write in `set_attribute` is in bounds
(`set_attribute` never panics when no setter is registered for the
attribute), and the out-of-range warning branch of `find_attribute` is
unreachable. -/
theorem c10_attribute_idx_in_bounds :
    (∀ a : AttributeId, Base.attribute_idx a = a.toNat - 1 ∧
      Base.attribute_idx a < NUM_ATTRIBUTES) ∧
    (∀ (b : Base) (a : AttributeId) (v : DataValue),
      b.attributes.length = NUM_ATTRIBUTES →
      b.attribute_setters a = none →
      b.set_attribute a v ≠ none) ∧
    (∀ (b : Base) (a : AttributeId),
      b.attributes.length = NUM_ATTRIBUTES →
      ¬ (Base.attribute_idx a ≥ b.attributes.length)) := by
  have hidx : ∀ a : AttributeId, Base.attribute_idx a < NUM_ATTRIBUTES := by
    intro a
    cases a <;> decide
  refine ⟨fun a => ⟨rfl, hidx a⟩, ?_, ?_⟩
  · intro b a v hlen hs
    unfold Base.set_attribute
    by_cases hv : typeIsValid a v
    · simp only [hv, not_true_eq_false, if_false, hs]
      rw [if_pos (by rw [hlen]; exact hidx a)]
      simp
    · simp [hv]
  · intro b a hlen
    rw [hlen]
    exact fun hge => absurd (hidx a) (by omega)

theorem store_bytes_nil : MessageBuffer.store_bytes ⟨[]⟩ [] = .ok ([], ⟨[]⟩) := by
  unfold MessageBuffer.store_bytes
  rw [show (⟨[]⟩ : MessageBuffer).in_buffer ++ ([] : Bytes) = [] from rfl, storeLoop]
  norm_num [MESSAGE_HEADER_LEN]

theorem store_bytes_emptyBodyChunk :
    MessageBuffer.store_bytes ⟨[]⟩ emptyBodyChunk = .ok ([], ⟨emptyBodyChunk⟩) := by
  unfold MessageBuffer.store_bytes
  rw [show (⟨[]⟩ : MessageBuffer).in_buffer ++ emptyBodyChunk = emptyBodyChunk
    from rfl, storeLoop_emptyBodyChunk_exact]

theorem store_bytes_emptyBodyChunk_one :
    MessageBuffer.store_bytes ⟨[]⟩ (emptyBodyChunk ++ [0]) =
      .ok ([.MessageChunk ⟨emptyBodyChunk⟩], ⟨[0]⟩) := by
  have hv : storeLoop [0] [.MessageChunk ⟨emptyBodyChunk⟩] =
      .ok ([.MessageChunk ⟨emptyBodyChunk⟩], [0]) := by
    rw [storeLoop]
    norm_num [MESSAGE_HEADER_LEN]
  unfold MessageBuffer.store_bytes
  rw [show (⟨[]⟩ : MessageBuffer).in_buffer ++ (emptyBodyChunk ++ [0]) =
    emptyBodyChunk ++ [0] from rfl,
    storeLoop_emptyBodyChunk_more [0] (by decide), hv]

/-- C4 (amended: the loop guard of message_buffer.rs line 40 is
`> MESSAGE_HEADER_LEN`, not `>=`, so an 8-byte message is only decoded once
at least one byte beyond it is buffered): when the buffered bytes are
exactly the 8-byte empty-body message, `store_bytes` returns Ok with NO
decoded messages and retains the bytes; when the buffered bytes strictly
extend that message and `store_bytes` returns Ok, the message is decoded
cleanly as the first element of the returned Vec. -/
theorem c4_empty_body_message :
    (∀ (mb : MessageBuffer) (bytes : Bytes),
      mb.in_buffer ++ bytes = emptyBodyChunk →
      mb.store_bytes bytes = .ok ([], ⟨emptyBodyChunk⟩)) ∧
    (∀ (mb : MessageBuffer) (bytes rest : Bytes) (msgs : List Message)
      (mb' : MessageBuffer),
      mb.in_buffer ++ bytes = emptyBodyChunk ++ rest → rest ≠ [] →
      mb.store_bytes bytes = .ok (msgs, mb') →
      msgs.head? = some (.MessageChunk ⟨emptyBodyChunk⟩)) := by
  constructor
  · intro mb bytes hbuf
    unfold MessageBuffer.store_bytes
    rw [hbuf, storeLoop_emptyBodyChunk_exact]
  · intro mb bytes rest msgs mb' hbuf hne h
    unfold MessageBuffer.store_bytes at h
    rw [hbuf, storeLoop_emptyBodyChunk_more rest hne] at h
    split at h
    · simp at h
    · next messages buf heq =>
      obtain ⟨tail, htail⟩ := storeLoop_append_acc heq
      simp only [Except.ok.injEq, Prod.mk.injEq] at h
      obtain ⟨rfl, -⟩ := h
      simp [htail]

theorem c4_empty_body_message_witness :
    ((⟨[]⟩ : MessageBuffer).in_buffer ++ emptyBodyChunk = emptyBodyChunk ∧
     MessageBuffer.store_bytes ⟨[]⟩ emptyBodyChunk = .ok ([], ⟨emptyBodyChunk⟩)) ∧
    ((⟨[]⟩ : MessageBuffer).in_buffer ++ (emptyBodyChunk ++ [0]) =
       emptyBodyChunk ++ [0] ∧
     ([0] : Bytes) ≠ [] ∧
     MessageBuffer.store_bytes ⟨[]⟩ (emptyBodyChunk ++ [0]) =
       .ok ([.MessageChunk ⟨emptyBodyChunk⟩], ⟨[0]⟩) ∧
     ([Message.MessageChunk ⟨emptyBodyChunk⟩] : List Message).head? =
       some (.MessageChunk ⟨emptyBodyChunk⟩)) :=
  ⟨⟨rfl, c4_empty_body_message.1 ⟨[]⟩ emptyBodyChunk rfl⟩,
   ⟨rfl, by decide, store_bytes_emptyBodyChunk_one,
    c4_empty_body_message.2 ⟨[]⟩ (emptyBodyChunk ++ [0]) [0]
      [.MessageChunk ⟨emptyBodyChunk⟩] ⟨[0]⟩ rfl (by decide)
      store_bytes_emptyBodyChunk_one⟩⟩

/-- C4 counterexample: the 8-byte chunk "MSG F size=8" is a well-formed
message with `message_size = MESSAGE_HEADER_LEN` and an empty body, its
bytes are fully present in the buffer, and it decodes cleanly on its own -
yet `store_bytes` returns an empty Vec and leaves it buffered, because the
loop guard `in_buffer.len() > MESSAGE_HEADER_LEN` is strict. -/
theorem c4_exact_size_counterexample :
    MessageHeader.decode emptyBodyChunk =
      .ok ({ message_type := .Chunk, is_final := 70,
             message_size := MESSAGE_HEADER_LEN }, []) ∧
    decodeStoredMessage .Chunk emptyBodyChunk =
      .ok (.MessageChunk ⟨emptyBodyChunk⟩) ∧
    MessageBuffer.store_bytes ⟨[]⟩ emptyBodyChunk = .ok ([], ⟨emptyBodyChunk⟩) :=
  ⟨by decide, by decide, store_bytes_emptyBodyChunk⟩

/-- C7: for the wire records whose `BinaryEncoder` implementations are in
the covered sources - `Argument`, `ContentFilter` and `ReadRequest` - and
every in-range value v: `decode(encode(v)) = v` consuming exactly the
encoded bytes, and `byte_len(v)` equals the number of bytes `encode(v)`
writes. -/
theorem c7_codec_roundtrip :
    (∀ v : Argument, v.WF →
      Argument.decode v.encode = .ok (v, []) ∧ v.encode.length = v.byte_len) ∧
    (∀ v : ContentFilter, v.WF →
      ContentFilter.decode v.encode = .ok (v, []) ∧
        v.encode.length = v.byte_len) ∧
    (∀ v : ReadRequest, v.WF →
      ReadRequest.decode v.encode = .ok (v, []) ∧
        v.encode.length = v.byte_len) := by
  refine ⟨fun v h => ⟨?_, argument_length_encode v⟩,
          fun v h => ⟨?_, contentFilter_length_encode v⟩,
          fun v h => ⟨?_, readRequest_length_encode v⟩⟩
  · have h2 := argument_decode_encode v h []
    rwa [List.append_nil] at h2
  · have h2 := contentFilter_decode_encode v h []
    rwa [List.append_nil] at h2
  · have h2 := readRequest_decode_encode v h []
    rwa [List.append_nil] at h2

def sampleArgument : Argument :=
  { name := some [110], data_type := ⟨0, .numeric 6⟩, value_rank := -1,
    array_dimensions := some [2, 3], description := ⟨none, some [100]⟩ }

def sampleContentFilter : ContentFilter :=
  { elements := some [⟨1, some [⟨⟨0, .numeric 0⟩, .byteString [1, 2]⟩]⟩] }

def sampleReadRequest : ReadRequest :=
  { request_header := sampleRequestHeader, max_age := 0,
    timestamps_to_return := .Both,
    nodes_to_read := some [⟨⟨0, .numeric 2258⟩, 13, none, ⟨0, none⟩⟩] }

theorem c7_codec_roundtrip_witness :
    (sampleArgument.WF ∧
      Argument.decode sampleArgument.encode = .ok (sampleArgument, []) ∧
      sampleArgument.encode.length = sampleArgument.byte_len) ∧
    (sampleContentFilter.WF ∧
      ContentFilter.decode sampleContentFilter.encode =
        .ok (sampleContentFilter, []) ∧
      sampleContentFilter.encode.length = sampleContentFilter.byte_len) ∧
    (sampleReadRequest.WF ∧
      ReadRequest.decode sampleReadRequest.encode = .ok (sampleReadRequest, []) ∧
      sampleReadRequest.encode.length = sampleReadRequest.byte_len) :=
  ⟨⟨by decide, c7_codec_roundtrip.1 sampleArgument (by decide)⟩,
   ⟨by decide, c7_codec_roundtrip.2.1 sampleContentFilter (by decide)⟩,
   ⟨by decide, c7_codec_roundtrip.2.2 sampleReadRequest (by decide)⟩⟩

/-- C8 (amended: after a feed that returns Ok, the retained buffer holds at
most MESSAGE_HEADER_LEN bytes - 8 bytes exactly is retained, see the
counterexample - or strictly fewer bytes than the `message_size` announced
by the header decodable at its front). -/
theorem c8_retained_buffer (mb : MessageBuffer) (bytes : Bytes)
    (msgs : List Message) (mb' : MessageBuffer)
    (h : mb.store_bytes bytes = .ok (msgs, mb')) :
    mb'.in_buffer.length ≤ MESSAGE_HEADER_LEN ∨
    ∃ hdr r, MessageHeader.decode mb'.in_buffer = .ok (hdr, r) ∧
      mb'.in_buffer.length < hdr.message_size := by
  unfold MessageBuffer.store_bytes at h
  split at h
  · simp at h
  · next messages buf heq =>
    simp only [Except.ok.injEq, Prod.mk.injEq] at h
    obtain ⟨-, rfl⟩ := h
    exact storeLoop_retained heq

theorem c8_retained_buffer_witness :
    MessageBuffer.store_bytes ⟨[]⟩ [] = .ok ([], ⟨[]⟩) ∧
    ((⟨[]⟩ : MessageBuffer).in_buffer.length ≤ MESSAGE_HEADER_LEN ∨
     ∃ hdr r, MessageHeader.decode (⟨[]⟩ : MessageBuffer).in_buffer =
       .ok (hdr, r) ∧
       (⟨[]⟩ : MessageBuffer).in_buffer.length < hdr.message_size) :=
  ⟨store_bytes_nil, c8_retained_buffer ⟨[]⟩ [] [] ⟨[]⟩ store_bytes_nil⟩

/-- C8 counterexample: feeding the 8-byte empty-body message to a fresh
buffer returns Ok and retains all 8 bytes: the retained length is not
strictly less than MESSAGE_HEADER_LEN, and not strictly less than the
`message_size` (= 8) announced by the header decodable at the front, so
the claimed invariant fails after this feed. -/
theorem c8_invariant_counterexample :
    MessageBuffer.store_bytes ⟨[]⟩ emptyBodyChunk = .ok ([], ⟨emptyBodyChunk⟩) ∧
    ¬ ((emptyBodyChunk : Bytes).length < MESSAGE_HEADER_LEN) ∧
    MessageHeader.decode emptyBodyChunk =
      .ok ({ message_type := .Chunk, is_final := 70, message_size := 8 }, []) ∧
    ¬ ((emptyBodyChunk : Bytes).length < 8) :=
  ⟨store_bytes_emptyBodyChunk, by decide, by decide, by decide⟩

/-- C9: in the lifecycle transition system, (1) in any state with
`abort = true` an accept-loop iteration is a no-op: `handle_connection` is
not invoked and the state (in particular the connections list) is
unchanged; (2) from any aborted state no event makes the connections list
grow, and abort stays set; (3) the accept-loop stop signal is sent (the
`stop_sent` flag first becomes true) only in a state whose connections
list is empty. -/
theorem c9_abort_protocol :
    (∀ s : ServerModel.ServerSt, s.abort = true →
      ServerModel.step .acceptSocket s = s) ∧
    (∀ (s : ServerModel.ServerSt) (e : ServerModel.Event), s.abort = true →
      (ServerModel.step e s).abort = true ∧
      (ServerModel.step e s).connections.length ≤ s.connections.length) ∧
    (∀ (s : ServerModel.ServerSt) (e : ServerModel.Event),
      s.stop_sent = false → (ServerModel.step e s).stop_sent = true →
      (ServerModel.step e s).connections = []) := by
  refine ⟨?_, ?_, ?_⟩
  · intro s habort
    simp only [ServerModel.step]
    by_cases hss : s.stop_sent <;> simp [hss, habort]
  · intro s e habort
    cases e with
    | abortRequest => exact ⟨rfl, le_refl _⟩
    | acceptSocket =>
      simp only [ServerModel.step]
      by_cases hss : s.stop_sent <;> simp [hss, habort]
    | pollTick =>
      simp only [ServerModel.step]
      rw [if_pos habort]
      constructor
      · split <;> exact habort
      · split <;> exact List.length_filter_le _ s.connections
    | terminateSession i =>
      simp only [ServerModel.step]
      split
      · exact ⟨habort, by simp [List.length_set]⟩
      · exact ⟨habort, le_refl _⟩
    | setLockAvailable i available =>
      simp only [ServerModel.step]
      split
      · exact ⟨habort, by simp [List.length_set]⟩
      · exact ⟨habort, le_refl _⟩
  · intro s e hss hstep
    cases e with
    | abortRequest =>
      have h3 : s.stop_sent = true := hstep
      rw [hss] at h3
      cases h3
    | acceptSocket =>
      simp only [ServerModel.step] at hstep
      by_cases h1 : s.stop_sent
      · rw [if_pos h1] at hstep
        rw [hss] at hstep
        cases hstep
      · rw [if_neg h1] at hstep
        by_cases h2 : s.abort
        · rw [if_pos h2] at hstep
          rw [hss] at hstep
          cases hstep
        · rw [if_neg h2] at hstep
          have h3 : s.stop_sent = true := hstep
          rw [hss] at h3
          cases h3
    | pollTick =>
      simp only [ServerModel.step] at hstep ⊢
      by_cases ha : s.abort
      · rw [if_pos ha] at hstep ⊢
        by_cases he : (ServerModel.remove_dead_connections s.connections).isEmpty
        · rw [if_pos he]
          exact List.isEmpty_iff.mp he
        · rw [if_neg he] at hstep
          have h3 : s.stop_sent = true := hstep
          rw [hss] at h3
          cases h3
      · rw [if_neg ha] at hstep
        rw [hss] at hstep
        cases hstep
    | terminateSession i =>
      simp only [ServerModel.step] at hstep
      split at hstep
      all_goals
        have h3 : s.stop_sent = true := hstep
      all_goals
        rw [hss] at h3
      all_goals
        cases h3
    | setLockAvailable i available =>
      simp only [ServerModel.step] at hstep
      split at hstep
      all_goals
        have h3 : s.stop_sent = true := hstep
      all_goals
        rw [hss] at h3
      all_goals
        cases h3

theorem c9_abort_protocol_witness :
    ((ServerModel.ServerSt.mk true [⟨false, true⟩] false).abort = true ∧
     ServerModel.step .acceptSocket (ServerModel.ServerSt.mk true [⟨false, true⟩] false) =
       ServerModel.ServerSt.mk true [⟨false, true⟩] false) ∧
    ((ServerModel.step .pollTick
        (ServerModel.ServerSt.mk true [⟨false, true⟩] false)).abort = true ∧
     (ServerModel.step .pollTick
        (ServerModel.ServerSt.mk true [⟨false, true⟩] false)).connections.length ≤
       (ServerModel.ServerSt.mk true [⟨false, true⟩] false).connections.length) ∧
    ((ServerModel.ServerSt.mk true [] false).stop_sent = false ∧
     (ServerModel.step .pollTick (ServerModel.ServerSt.mk true [] false)).stop_sent =
       true ∧
     (ServerModel.step .pollTick (ServerModel.ServerSt.mk true [] false)).connections =
       []) :=
  ⟨⟨rfl, c9_abort_protocol.1 _ rfl⟩,
   c9_abort_protocol.2.1 _ .pollTick rfl,
   ⟨rfl, by decide,
    c9_abort_protocol.2.2 (ServerModel.ServerSt.mk true [] false) .pollTick rfl
      (by decide)⟩⟩

theorem c10_attribute_idx_in_bounds_witness :
    (Base.attribute_idx .value = AttributeId.toNat .value - 1 ∧
      Base.attribute_idx .value < NUM_ATTRIBUTES) ∧
    (plainBase.attributes.length = NUM_ATTRIBUTES ∧
     plainBase.attribute_setters .value = none ∧
     plainBase.set_attribute .value sampleDataValue ≠ none) ∧
    ¬ (Base.attribute_idx .value ≥ plainBase.attributes.length) :=
  ⟨c10_attribute_idx_in_bounds.1 .value,
   ⟨by decide, rfl,
    c10_attribute_idx_in_bounds.2.1 plainBase .value sampleDataValue (by decide) rfl⟩,
   c10_attribute_idx_in_bounds.2.2 plainBase .value (by decide)⟩

end Opcua
